import Mathlib

/-!
Shallow embedding of the PrimeStream catalog synchronization pipeline.

Source files modelled:
- `server/vidsrc-api.ts` — `fetchMoviesFromVidsrc`, `fetchTVShowsFromVidsrc`,
  `fetchEpisodesFromVidsrc`, `refreshContentDatabase`;
- the in-memory persistence layer `MemStorage` (movie/show/episode tables and
  the API cache) that these functions call;
- `client/src/components/admin/AdminPanel.tsx` — the year-range validation of
  `handleBulkImport`.

Conventions of the embedding:
- Timestamps (`Date.getTime()` values) are `Int` milliseconds.
- JavaScript `x || null` on an optional string or number is modelled by
  `orNullStr` / `orNullInt` (the empty string and `0` are falsy).
- The network is an environment oracle: for each endpoint family, a function
  from the page number to `Except Unit (Option (List payload))`, where
  `Except.error` models a thrown transport error of `axios.get`,
  `Except.ok none` models a response whose body is not an array, and
  `Except.ok (some l)` models an array response.  The environment also carries
  the availability prober of the spec (a `String → Bool` oracle); the module
  under study never consults it.
- The API cache is keyed by endpoint URL.  The three endpoint URL templates
  differ pairwise and are injective in the page number, so the single
  `Map endpoint → entry` of the source is modelled as three association lists
  keyed by page, one per endpoint family.  A cached payload is stored as
  `Option (List payload)`: `some l` is a body that `JSON.parse` reads back as
  the array `l`, `none` is a body on which the parse throws.
- Each fetch result records `networkCalls`, the number of `axios.get` calls
  performed, so that cache-hit short-circuits are observable.
-/

/-- Provider payload for one movie, from the `VidsrcMovie` interface of
`server/vidsrc-api.ts`. -/
structure VidsrcMovie where
  title : String
  year : Option Int
  poster : Option String
  plot : Option String
  imdb_id : String
  tmdb_id : Option String
  runtime : Option String
  rating : Option String
  genre : Option String
  director : Option String
  actors : Option String
  deriving DecidableEq

/-- Provider payload for one TV show, from the `VidsrcTVShow` interface. -/
structure VidsrcTVShow where
  title : String
  year : Option String
  poster : Option String
  plot : Option String
  imdb_id : String
  tmdb_id : Option String
  seasons : Option Int
  rating : Option String
  genre : Option String
  creator : Option String
  actors : Option String
  deriving DecidableEq

/-- Provider payload for one episode, from the `VidsrcEpisode` interface. -/
structure VidsrcEpisode where
  title : String
  imdb_id : Option String
  plot : Option String
  poster : Option String
  runtime : Option String
  air_date : Option String
  show_imdb_id : String
  season : Int
  episode : Int
  deriving DecidableEq

/-- Persisted movie row (`movies` table of `shared/schema.ts`). -/
structure Movie where
  id : Nat
  title : String
  imdbId : String
  tmdbId : Option String
  year : Option Int
  poster : Option String
  plot : Option String
  rating : Option String
  runtime : Option String
  genre : Option String
  director : Option String
  actors : Option String
  isFeatured : Bool
  isVisible : Bool
  createdAt : Int
  lastUpdated : Int
  deriving DecidableEq

/-- Persisted TV-show row (`tv_shows` table; `year` is text, may be a range). -/
structure TVShow where
  id : Nat
  title : String
  imdbId : String
  tmdbId : Option String
  year : Option String
  poster : Option String
  plot : Option String
  rating : Option String
  seasons : Option Int
  genre : Option String
  creator : Option String
  actors : Option String
  isFeatured : Bool
  isVisible : Bool
  createdAt : Int
  lastUpdated : Int
  deriving DecidableEq

/-- Persisted episode row (`episodes` table; note the schema declares no
uniqueness constraint on `(tvShowId, season, episode)`). -/
structure Episode where
  id : Nat
  tvShowId : Nat
  season : Int
  episode : Int
  title : String
  imdbId : Option String
  plot : Option String
  poster : Option String
  runtime : Option String
  airDate : Option String
  createdAt : Int
  deriving DecidableEq

/-- Fields of `InsertMovie` (insert schema: `movies` minus `id`, `createdAt`,
`lastUpdated`).  The call sites in `vidsrc-api.ts` populate every field, so the
`Partial` update payload is total there. -/
structure InsertMovie where
  title : String
  imdbId : String
  tmdbId : Option String
  year : Option Int
  poster : Option String
  plot : Option String
  rating : Option String
  runtime : Option String
  genre : Option String
  director : Option String
  actors : Option String
  isFeatured : Bool
  isVisible : Bool
  deriving DecidableEq

/-- Fields of `InsertTVShow`. -/
structure InsertTVShow where
  title : String
  imdbId : String
  tmdbId : Option String
  year : Option String
  poster : Option String
  plot : Option String
  rating : Option String
  seasons : Option Int
  genre : Option String
  creator : Option String
  actors : Option String
  isFeatured : Bool
  isVisible : Bool
  deriving DecidableEq

/-- Fields of `InsertEpisode`. -/
structure InsertEpisode where
  title : String
  tvShowId : Nat
  season : Int
  episode : Int
  imdbId : Option String
  plot : Option String
  poster : Option String
  runtime : Option String
  airDate : Option String
  deriving DecidableEq

/-- JavaScript `s || null` for an optional string: `undefined` and the empty
string are falsy and give `null`. -/
def orNullStr : Option String → Option String
  | some s => if s = "" then none else some s
  | none => none

/-- JavaScript `n || null` for an optional number: `undefined` and `0` are
falsy and give `null`. -/
def orNullInt : Option Int → Option Int
  | some n => if n = 0 then none else some n
  | none => none

/-- Cache entry for one movies-endpoint page (`api_cache` row restricted to
that endpoint; the row id is never read back and is omitted). -/
structure MovieCacheEntry where
  data : Option (List VidsrcMovie)
  lastUpdated : Int
  deriving DecidableEq

/-- Cache entry for one tvshows-endpoint page. -/
structure TVShowCacheEntry where
  data : Option (List VidsrcTVShow)
  lastUpdated : Int
  deriving DecidableEq

/-- Cache entry for one episodes-endpoint page. -/
structure EpisodeCacheEntry where
  data : Option (List VidsrcEpisode)
  lastUpdated : Int
  deriving DecidableEq

/-- State of `MemStorage` (`server/storage.ts`): the three content tables in
insertion order (a JS `Map` iterates in insertion order and `Map.set` on an
existing key keeps its position), the per-endpoint-family API cache, and the
three id counters. -/
structure MemStorage where
  movies : List Movie
  tvShows : List TVShow
  episodes : List Episode
  movieCache : List (Nat × MovieCacheEntry)
  tvShowCache : List (Nat × TVShowCacheEntry)
  episodeCache : List (Nat × EpisodeCacheEntry)
  currentMovieIds : Nat
  currentTVShowIds : Nat
  currentEpisodeIds : Nat
  deriving DecidableEq

namespace MemStorage

/-- Model of `getMovieByImdbId`: first row (in insertion order) whose `imdbId` matches. -/
def getMovieByImdbId (st : MemStorage) (imdbId : String) : Option Movie :=
  st.movies.find? (fun m => m.imdbId == imdbId)

/-- Model of `getTVShowByImdbId`. -/
def getTVShowByImdbId (st : MemStorage) (imdbId : String) : Option TVShow :=
  st.tvShows.find? (fun s => s.imdbId == imdbId)

/-- Model of `createMovie`: assign the next id, stamp `createdAt`/`lastUpdated` with the
current time, append to the table. -/
def createMovie (st : MemStorage) (d : InsertMovie) (now : Int) : MemStorage :=
  { st with
    movies := st.movies ++
      [{ id := st.currentMovieIds, title := d.title, imdbId := d.imdbId,
         tmdbId := d.tmdbId, year := d.year, poster := d.poster, plot := d.plot,
         rating := d.rating, runtime := d.runtime, genre := d.genre,
         director := d.director, actors := d.actors, isFeatured := d.isFeatured,
         isVisible := d.isVisible, createdAt := now, lastUpdated := now }],
    currentMovieIds := st.currentMovieIds + 1 }

/-- Merge of `{...existingMovie, ...movie, lastUpdated: new Date()}` for a full
`InsertMovie` payload: every insert-schema field is overwritten, `id` and
`createdAt` are kept, `lastUpdated` is stamped. -/
def Movie.applyInsert (r : Movie) (d : InsertMovie) (now : Int) : Movie :=
  { id := r.id, title := d.title, imdbId := d.imdbId, tmdbId := d.tmdbId,
    year := d.year, poster := d.poster, plot := d.plot, rating := d.rating,
    runtime := d.runtime, genre := d.genre, director := d.director,
    actors := d.actors, isFeatured := d.isFeatured, isVisible := d.isVisible,
    createdAt := r.createdAt, lastUpdated := now }

/-- Model of `updateMovie` with a full `InsertMovie` payload (the shape passed by
`fetchMoviesFromVidsrc`): rewrite the row stored under `id` in place; if the id
is absent the table is unchanged (the source returns `undefined` there, and the
caller ignores the return value). -/
def updateMovie (st : MemStorage) (id : Nat) (d : InsertMovie) (now : Int) :
    MemStorage :=
  { st with
    movies := st.movies.map (fun r => if r.id = id then Movie.applyInsert r d now else r) }

/-- Model of `createTVShow`. -/
def createTVShow (st : MemStorage) (d : InsertTVShow) (now : Int) : MemStorage :=
  { st with
    tvShows := st.tvShows ++
      [{ id := st.currentTVShowIds, title := d.title, imdbId := d.imdbId,
         tmdbId := d.tmdbId, year := d.year, poster := d.poster, plot := d.plot,
         rating := d.rating, seasons := d.seasons, genre := d.genre,
         creator := d.creator, actors := d.actors, isFeatured := d.isFeatured,
         isVisible := d.isVisible, createdAt := now, lastUpdated := now }],
    currentTVShowIds := st.currentTVShowIds + 1 }

/-- Merge of `{...existingTVShow, ...tvShow, lastUpdated: new Date()}` for a
full `InsertTVShow` payload. -/
def TVShow.applyInsert (r : TVShow) (d : InsertTVShow) (now : Int) : TVShow :=
  { id := r.id, title := d.title, imdbId := d.imdbId, tmdbId := d.tmdbId,
    year := d.year, poster := d.poster, plot := d.plot, rating := d.rating,
    seasons := d.seasons, genre := d.genre, creator := d.creator,
    actors := d.actors, isFeatured := d.isFeatured, isVisible := d.isVisible,
    createdAt := r.createdAt, lastUpdated := now }

/-- Model of `updateTVShow` with a full `InsertTVShow` payload. -/
def updateTVShow (st : MemStorage) (id : Nat) (d : InsertTVShow) (now : Int) :
    MemStorage :=
  { st with
    tvShows := st.tvShows.map (fun r => if r.id = id then TVShow.applyInsert r d now else r) }

/-- Stable insertion of an episode into a list sorted by `(season, episode)`;
models the comparator of `MemStorage.getEpisodes` (ascending season, then
ascending episode; JS `Array.prototype.sort` is stable). -/
def insertSorted (e : Episode) : List Episode → List Episode
  | [] => [e]
  | x :: xs =>
      if e.season < x.season ∨ (e.season = x.season ∧ e.episode < x.episode) then
        e :: x :: xs
      else
        x :: insertSorted e xs

/-- Sort a list of episodes by `(season, episode)`, stably. -/
def sortEpisodes : List Episode → List Episode
  | [] => []
  | x :: xs => insertSorted x (sortEpisodes xs)

/-- Model of `getEpisodes(tvShowId, season)`: episodes of the show, filtered by season
when the season argument is truthy (`season ? episode.season === season : true`
— a season of `0` is falsy in JS and disables the filter), sorted by
`(season, episode)`. -/
def getEpisodes (st : MemStorage) (tvShowId : Nat) (season : Int) : List Episode :=
  sortEpisodes (st.episodes.filter
    (fun e => e.tvShowId == tvShowId && (if season = 0 then true else e.season == season)))

/-- Model of `createEpisode`: assign the next id, stamp `createdAt`, append. -/
def createEpisode (st : MemStorage) (d : InsertEpisode) (now : Int) : MemStorage :=
  { st with
    episodes := st.episodes ++
      [{ id := st.currentEpisodeIds, tvShowId := d.tvShowId, season := d.season,
         episode := d.episode, title := d.title, imdbId := d.imdbId,
         plot := d.plot, poster := d.poster, runtime := d.runtime,
         airDate := d.airDate, createdAt := now }],
    currentEpisodeIds := st.currentEpisodeIds + 1 }

/-- Merge of `{...existingEpisode, ...episode}` for a full `InsertEpisode`
payload (`id` and `createdAt` kept; episodes carry no `lastUpdated`). -/
def Episode.applyInsert (r : Episode) (d : InsertEpisode) : Episode :=
  { id := r.id, tvShowId := d.tvShowId, season := d.season, episode := d.episode,
    title := d.title, imdbId := d.imdbId, plot := d.plot, poster := d.poster,
    runtime := d.runtime, airDate := d.airDate, createdAt := r.createdAt }

/-- Model of `updateEpisode` with a full `InsertEpisode` payload. -/
def updateEpisode (st : MemStorage) (id : Nat) (d : InsertEpisode) : MemStorage :=
  { st with
    episodes := st.episodes.map (fun r => if r.id = id then Episode.applyInsert r d else r) }

/-- Lookup in a page-keyed cache family (`getCachedData` restricted to one
endpoint template). -/
def cacheGet {α : Type} (l : List (Nat × α)) (page : Nat) : Option α :=
  (l.find? (fun p => p.1 == page)).map Prod.snd

/-- Upsert into a page-keyed cache family (`setCachedData`): overwrite the
entry in place if the key exists, else append. -/
def cachePut {α : Type} (l : List (Nat × α)) (page : Nat) (v : α) : List (Nat × α) :=
  if (l.find? (fun p => p.1 == page)).isSome then
    l.map (fun p => if p.1 = page then (page, v) else p)
  else
    l ++ [(page, v)]

end MemStorage

/-- Environment of one run: the current clock value and the network oracles.
`probe` is the availability prober of the spec (§4.3); it is part of the
environment so that availability-gate claims are statable, but nothing in
`vidsrc-api.ts` calls it. -/
structure Env where
  now : Int
  moviesResp : Nat → Except Unit (Option (List VidsrcMovie))
  tvShowsResp : Nat → Except Unit (Option (List VidsrcTVShow))
  episodesResp : Nat → Except Unit (Option (List VidsrcEpisode))
  probe : String → Bool

/-- Per-kind result summary `{added, updated, total}`. -/
structure SyncResult where
  added : Nat
  updated : Nat
  total : Nat
  deriving DecidableEq

/-- Outcome of one fetch call: the returned summary, the post-state of the
storage, and how many network requests were issued. -/
structure FetchOutcome where
  result : SyncResult
  state : MemStorage
  networkCalls : Nat
  deriving DecidableEq

/-- One hour in milliseconds (`60 * 60 * 1000` in `vidsrc-api.ts`,
`3600000` in `routes.ts`). -/
def oneHourMs : Int := 3600000

/-- Freshness test shared by every caching call site:
`new Date().getTime() - new Date(cached.lastUpdated).getTime() < TTL`. -/
def isCacheFresh (now lastUpdated ttl : Int) : Bool :=
  now - lastUpdated < ttl

/-- The `InsertMovie` payload built from one provider movie in the loop body of
`fetchMoviesFromVidsrc` (lines 109-123). -/
def movieDataOf (m : VidsrcMovie) : InsertMovie :=
  { title := m.title, imdbId := m.imdb_id, tmdbId := orNullStr m.tmdb_id,
    year := orNullInt m.year, poster := orNullStr m.poster,
    plot := orNullStr m.plot, rating := orNullStr m.rating,
    runtime := orNullStr m.runtime, genre := orNullStr m.genre,
    director := orNullStr m.director, actors := orNullStr m.actors,
    isFeatured := false, isVisible := true }

/-- Loop body of `fetchMoviesFromVidsrc` (lines 106-132): look the movie up by
`imdb_id`; update the found row (counting `updated`) or create a new row
(counting `added`). -/
def processMoviesStep (now : Int) (acc : MemStorage × Nat × Nat) (m : VidsrcMovie) :
    MemStorage × Nat × Nat :=
  match acc.1.getMovieByImdbId m.imdb_id with
  | some existingMovie =>
      (acc.1.updateMovie existingMovie.id (movieDataOf m) now, acc.2.1, acc.2.2 + 1)
  | none =>
      (acc.1.createMovie (movieDataOf m) now, acc.2.1 + 1, acc.2.2)

/-- Per-title processing loop of `fetchMoviesFromVidsrc`: fold of the loop body
over the fetched page, accumulating `(state, added, updated)`. -/
def processMovies (movies : List VidsrcMovie) (now : Int) (st : MemStorage) :
    MemStorage × Nat × Nat :=
  movies.foldl (processMoviesStep now) (st, 0, 0)

/-- Network path of `fetchMoviesFromVidsrc` (lines 84-138): issue the request;
a thrown transport error is rethrown by the outer catch; a non-array body
returns zero counts without caching or processing; an array body is cached and
then processed title by title. -/
def fetchMoviesNetwork (page : Nat) (env : Env) (st : MemStorage) :
    Except Unit FetchOutcome :=
  match env.moviesResp page with
  | .error _ => .error ()
  | .ok none => .ok { result := { added := 0, updated := 0, total := 0 }, state := st, networkCalls := 1 }
  | .ok (some movies) =>
      let entry := MovieCacheEntry.mk (some movies) env.now
      let st1 : MemStorage := { st with movieCache := MemStorage.cachePut st.movieCache page entry }
      let p := processMovies movies env.now st1
      .ok { result := { added := p.2.1, updated := p.2.2, total := movies.length },
            state := p.1, networkCalls := 1 }

/-- Model of `fetchMoviesFromVidsrc(page)`: if a cache entry for the page exists, is
less than one hour old, and its payload parses, return its length with zero
counts and no network call; otherwise (including a parse failure on a fresh
entry, whose exception is swallowed) take the network path. -/
def fetchMoviesFromVidsrc (page : Nat) (env : Env) (st : MemStorage) :
    Except Unit FetchOutcome :=
  match MemStorage.cacheGet st.movieCache page with
  | some cached =>
      if isCacheFresh env.now cached.lastUpdated oneHourMs then
        match cached.data with
        | some movies =>
            .ok { result := { added := 0, updated := 0, total := movies.length },
                  state := st, networkCalls := 0 }
        | none => fetchMoviesNetwork page env st
      else fetchMoviesNetwork page env st
  | none => fetchMoviesNetwork page env st

/-- The `InsertTVShow` payload built from one provider show (lines 205-219). -/
def tvShowDataOf (s : VidsrcTVShow) : InsertTVShow :=
  { title := s.title, imdbId := s.imdb_id, tmdbId := orNullStr s.tmdb_id,
    year := orNullStr s.year, poster := orNullStr s.poster,
    plot := orNullStr s.plot, rating := orNullStr s.rating,
    seasons := orNullInt s.seasons, genre := orNullStr s.genre,
    creator := orNullStr s.creator, actors := orNullStr s.actors,
    isFeatured := false, isVisible := true }

/-- Loop body of `fetchTVShowsFromVidsrc` (lines 202-228). -/
def processTVShowsStep (now : Int) (acc : MemStorage × Nat × Nat) (s : VidsrcTVShow) :
    MemStorage × Nat × Nat :=
  match acc.1.getTVShowByImdbId s.imdb_id with
  | some existingTVShow =>
      (acc.1.updateTVShow existingTVShow.id (tvShowDataOf s) now, acc.2.1, acc.2.2 + 1)
  | none =>
      (acc.1.createTVShow (tvShowDataOf s) now, acc.2.1 + 1, acc.2.2)

/-- Per-title processing loop of `fetchTVShowsFromVidsrc`. -/
def processTVShows (tvShows : List VidsrcTVShow) (now : Int) (st : MemStorage) :
    MemStorage × Nat × Nat :=
  tvShows.foldl (processTVShowsStep now) (st, 0, 0)

/-- Network path of `fetchTVShowsFromVidsrc`. -/
def fetchTVShowsNetwork (page : Nat) (env : Env) (st : MemStorage) :
    Except Unit FetchOutcome :=
  match env.tvShowsResp page with
  | .error _ => .error ()
  | .ok none => .ok { result := { added := 0, updated := 0, total := 0 }, state := st, networkCalls := 1 }
  | .ok (some tvShows) =>
      let entry := TVShowCacheEntry.mk (some tvShows) env.now
      let st1 : MemStorage := { st with tvShowCache := MemStorage.cachePut st.tvShowCache page entry }
      let p := processTVShows tvShows env.now st1
      .ok { result := { added := p.2.1, updated := p.2.2, total := tvShows.length },
            state := p.1, networkCalls := 1 }

/-- Model of `fetchTVShowsFromVidsrc(page)`, same shape as the movies variant. -/
def fetchTVShowsFromVidsrc (page : Nat) (env : Env) (st : MemStorage) :
    Except Unit FetchOutcome :=
  match MemStorage.cacheGet st.tvShowCache page with
  | some cached =>
      if isCacheFresh env.now cached.lastUpdated oneHourMs then
        match cached.data with
        | some tvShows =>
            .ok { result := { added := 0, updated := 0, total := tvShows.length },
                  state := st, networkCalls := 0 }
        | none => fetchTVShowsNetwork page env st
      else fetchTVShowsNetwork page env st
  | none => fetchTVShowsNetwork page env st

/-- The `InsertEpisode` payload built from one provider episode and the owning show row
(lines 313-323). -/
def episodeDataOf (e : VidsrcEpisode) (tvShowId : Nat) : InsertEpisode :=
  { title := e.title, tvShowId := tvShowId, season := e.season,
    episode := e.episode, imdbId := orNullStr e.imdb_id,
    plot := orNullStr e.plot, poster := orNullStr e.poster,
    runtime := orNullStr e.runtime, airDate := orNullStr e.air_date }

/-- Loop body of `fetchEpisodesFromVidsrc` (lines 298-332): resolve the owning
show by `show_imdb_id`, skipping the episode entirely when it is not stored;
then update the row matching `(season, episode)` among that show's episodes, or
create a new row. -/
def processEpisodesStep (now : Int) (acc : MemStorage × Nat × Nat) (e : VidsrcEpisode) :
    MemStorage × Nat × Nat :=
  match acc.1.getTVShowByImdbId e.show_imdb_id with
  | none => acc
  | some tvShow =>
      let existingEpisode := (acc.1.getEpisodes tvShow.id e.season).find?
        (fun x => x.season == e.season && x.episode == e.episode)
      match existingEpisode with
      | some ex =>
          (acc.1.updateEpisode ex.id (episodeDataOf e tvShow.id), acc.2.1, acc.2.2 + 1)
      | none =>
          (acc.1.createEpisode (episodeDataOf e tvShow.id) now, acc.2.1 + 1, acc.2.2)

/-- Per-episode processing loop of `fetchEpisodesFromVidsrc`. -/
def processEpisodes (episodes : List VidsrcEpisode) (now : Int) (st : MemStorage) :
    MemStorage × Nat × Nat :=
  episodes.foldl (processEpisodesStep now) (st, 0, 0)

/-- Network path of `fetchEpisodesFromVidsrc`. -/
def fetchEpisodesNetwork (page : Nat) (env : Env) (st : MemStorage) :
    Except Unit FetchOutcome :=
  match env.episodesResp page with
  | .error _ => .error ()
  | .ok none => .ok { result := { added := 0, updated := 0, total := 0 }, state := st, networkCalls := 1 }
  | .ok (some episodes) =>
      let entry := EpisodeCacheEntry.mk (some episodes) env.now
      let st1 : MemStorage := { st with episodeCache := MemStorage.cachePut st.episodeCache page entry }
      let p := processEpisodes episodes env.now st1
      .ok { result := { added := p.2.1, updated := p.2.2, total := episodes.length },
            state := p.1, networkCalls := 1 }

/-- Model of `fetchEpisodesFromVidsrc(page)`, same shape as the movies variant. -/
def fetchEpisodesFromVidsrc (page : Nat) (env : Env) (st : MemStorage) :
    Except Unit FetchOutcome :=
  match MemStorage.cacheGet st.episodeCache page with
  | some cached =>
      if isCacheFresh env.now cached.lastUpdated oneHourMs then
        match cached.data with
        | some episodes =>
            .ok { result := { added := 0, updated := 0, total := episodes.length },
                  state := st, networkCalls := 0 }
        | none => fetchEpisodesNetwork page env st
      else fetchEpisodesNetwork page env st
  | none => fetchEpisodesNetwork page env st

/-- Accumulated refresh totals per kind. -/
structure RefreshTotals where
  movies : SyncResult
  tvShows : SyncResult
  episodes : SyncResult
  deriving DecidableEq

/-- Pointwise accumulation of three fetch summaries into the totals. -/
def RefreshTotals.accum (t : RefreshTotals) (m s e : SyncResult) : RefreshTotals :=
  { movies := { added := t.movies.added + m.added, updated := t.movies.updated + m.updated,
                total := t.movies.total + m.total },
    tvShows := { added := t.tvShows.added + s.added, updated := t.tvShows.updated + s.updated,
                 total := t.tvShows.total + s.total },
    episodes := { added := t.episodes.added + e.added, updated := t.episodes.updated + e.updated,
                  total := t.episodes.total + e.total } }

/-- Page loop of `refreshContentDatabase` (lines 361-379): for each page fetch
movies, then TV shows, then episodes, accumulating counts; an error thrown by
any fetch propagates out of the loop (there is no try/catch in
`refreshContentDatabase`). -/
def refreshGo (env : Env) : Nat → Nat → MemStorage → RefreshTotals →
    Except Unit (RefreshTotals × MemStorage)
  | 0, _, st, acc => .ok (acc, st)
  | fuel + 1, page, st, acc => do
      let m ← fetchMoviesFromVidsrc page env st
      let s ← fetchTVShowsFromVidsrc page env m.state
      let e ← fetchEpisodesFromVidsrc page env s.state
      refreshGo env fuel (page + 1) e.state (acc.accum m.result s.result e.result)

/-- Model of `refreshContentDatabase(pagesToFetch)`: run the page loop from page 1 with
zero totals. -/
def refreshContentDatabase (pagesToFetch : Nat) (env : Env) (st : MemStorage) :
    Except Unit (RefreshTotals × MemStorage) :=
  refreshGo env pagesToFetch 1 st
    { movies := { added := 0, updated := 0, total := 0 },
      tvShows := { added := 0, updated := 0, total := 0 },
      episodes := { added := 0, updated := 0, total := 0 } }

/-- Inclusive year range `startYear..endYear` as a list. -/
def yearRange (startYear endYear : Int) : List Int :=
  (List.range (endYear - startYear + 1).toNat).map (fun i => startYear + i)

/-- Description of a bulk-import run that `handleBulkImport` launches after its
validations pass: the progress record it initializes and the years it fetches. -/
structure BulkRun where
  totalYears : Int
  years : List Int
  deriving DecidableEq

/-- Year-range validation and launch decision of `handleBulkImport`
(`AdminPanel.tsx` lines 883-936), for already-parsed integer inputs: each
failed validation returns (a toast is shown) before any progress
initialization or per-year fetch; a range longer than five years additionally
requires the window-confirm gate.  `none` models returning without initializing
progress and without issuing any fetch. -/
def handleBulkImport (startYear endYear currentYear : Int) (confirmed : Bool) :
    Option BulkRun :=
  if startYear < 1900 ∨ startYear > currentYear then none
  else if endYear < 1900 ∨ endYear > currentYear then none
  else if startYear > endYear then none
  else
    let totalYears := endYear - startYear + 1
    if totalYears > 5 ∧ ¬confirmed then none
    else some { totalYears := totalYears, years := yearRange startYear endYear }

/-- One administrative sync invocation, for stating invariants over sequences
of sequentially executed sync operations. -/
inductive SyncOp where
  | movieSync (page : Nat) (env : Env)
  | tvShowSync (page : Nat) (env : Env)
  | episodeSync (page : Nat) (env : Env)

/-- Storage state after one sync invocation: the fetch's post-state on success;
on a thrown transport error the storage is unchanged (the only throw point,
`axios.get`, precedes every write). -/
def applySyncOp (st : MemStorage) : SyncOp → MemStorage
  | .movieSync page env =>
      match fetchMoviesFromVidsrc page env st with
      | .ok o => o.state
      | .error _ => st
  | .tvShowSync page env =>
      match fetchTVShowsFromVidsrc page env st with
      | .ok o => o.state
      | .error _ => st
  | .episodeSync page env =>
      match fetchEpisodesFromVidsrc page env st with
      | .ok o => o.state
      | .error _ => st

/-! ### Invariants of the storage state -/

/-- Row ids of the movie table are pairwise distinct and below the id counter;
this holds for every state `MemStorage` can reach from its constructor. -/
def MoviesWf (st : MemStorage) : Prop :=
  (st.movies.map Movie.id).Pairwise (· ≠ ·) ∧ ∀ r ∈ st.movies, r.id < st.currentMovieIds

/-- Row ids of the TV-show table are pairwise distinct and below the counter. -/
def TVShowsWf (st : MemStorage) : Prop :=
  (st.tvShows.map TVShow.id).Pairwise (· ≠ ·) ∧ ∀ r ∈ st.tvShows, r.id < st.currentTVShowIds

/-- Row ids of the episode table are pairwise distinct and below the counter. -/
def EpisodesWf (st : MemStorage) : Prop :=
  (st.episodes.map Episode.id).Pairwise (· ≠ ·) ∧ ∀ r ∈ st.episodes, r.id < st.currentEpisodeIds

/-- No two movie rows share an `imdbId`. -/
def UniqueMovieImdbIds (st : MemStorage) : Prop :=
  (st.movies.map Movie.imdbId).Pairwise (· ≠ ·)

/-- No two TV-show rows share an `imdbId`. -/
def UniqueTVShowImdbIds (st : MemStorage) : Prop :=
  (st.tvShows.map TVShow.imdbId).Pairwise (· ≠ ·)

/-- Dedup key of an episode row. -/
def episodeKey (e : Episode) : Nat × Int × Int :=
  (e.tvShowId, e.season, e.episode)

/-- No two episode rows share `(tvShowId, season, episode)`. -/
def UniqueEpisodeKeys (st : MemStorage) : Prop :=
  (st.episodes.map episodeKey).Pairwise (· ≠ ·)

/-- State after `fetchMoviesFromVidsrc` has stored a fetched page in the
cache, before per-title processing. -/
def moviesCacheState (page : Nat) (env : Env) (st : MemStorage) (l : List VidsrcMovie) : MemStorage :=
  { st with movieCache := MemStorage.cachePut st.movieCache page (MovieCacheEntry.mk (some l) env.now) }

/-- State after `fetchTVShowsFromVidsrc` has stored a fetched page in the cache. -/
def tvShowsCacheState (page : Nat) (env : Env) (st : MemStorage) (l : List VidsrcTVShow) : MemStorage :=
  { st with tvShowCache := MemStorage.cachePut st.tvShowCache page (TVShowCacheEntry.mk (some l) env.now) }

/-- State after `fetchEpisodesFromVidsrc` has stored a fetched page in the cache. -/
def episodesCacheState (page : Nat) (env : Env) (st : MemStorage) (l : List VidsrcEpisode) : MemStorage :=
  { st with episodeCache := MemStorage.cachePut st.episodeCache page (EpisodeCacheEntry.mk (some l) env.now) }

/-- Concrete provider movie used in witnesses and counterexamples. -/
def wMovie : VidsrcMovie :=
  ⟨"Alpha", none, none, none, "tt0000001", none, none, none, none, none, none⟩

/-- Empty storage, as built by the `MemStorage` constructor. -/
def st0 : MemStorage := ⟨[], [], [], [], [], [], 1, 1, 1⟩

/-- Storage holding one movie row that an administrator marked featured. -/
def wRowFeatured : Movie :=
  ⟨1, "Old", "tt0000001", none, none, none, none, none, none, none, none, none, true, true, 0, 0⟩

/-- Storage with the featured row for `"tt0000001"`. -/
def stF : MemStorage := ⟨[wRowFeatured], [], [], [], [], [], 2, 1, 1⟩

/-- Fresh cache entry for page 1 holding one parsed movie. -/
def wEntry : MovieCacheEntry := ⟨some [wMovie], 0⟩

/-- Storage with only the cache entry `wEntry` for movies page 1. -/
def wState : MemStorage := ⟨[], [], [], [(1, wEntry)], [], [], 1, 1, 1⟩

/-- Environment whose movies endpoint returns one movie; prober says available. -/
def env5a : Env :=
  ⟨0, fun _ => .ok (some [wMovie]), fun _ => .error (), fun _ => .error (), fun _ => true⟩

/-- Same provider data as `env5a`, ten milliseconds later. -/
def env5b : Env :=
  ⟨10, fun _ => .ok (some [wMovie]), fun _ => .error (), fun _ => .error (), fun _ => true⟩

/-- Same provider data as `env5a`, but the availability prober reports every
title unavailable. -/
def env1c : Env :=
  ⟨0, fun _ => .ok (some [wMovie]), fun _ => .error (), fun _ => .error (), fun _ => false⟩

/-- Environment whose network always throws; a run that returns successfully
under it performed no network call. -/
def wEnv : Env :=
  ⟨1000, fun _ => .error (), fun _ => .error (), fun _ => .error (), fun _ => true⟩

/-- Environment at cache age `oneHourMs - 1` relative to `wEntry`. -/
def w9EnvFresh : Env :=
  ⟨3599999, fun _ => .ok (some []), fun _ => .error (), fun _ => .error (), fun _ => true⟩

/-- Environment at cache age exactly `oneHourMs` relative to `wEntry`. -/
def w9EnvStale : Env :=
  ⟨3600000, fun _ => .ok (some []), fun _ => .error (), fun _ => .error (), fun _ => true⟩

/-- Outcome of the first sync run of `env5a` on the empty store. -/
def w5Out : FetchOutcome :=
  ((fetchMoviesFromVidsrc 1 env5a st0).toOption).getD ⟨⟨0, 0, 0⟩, st0, 0⟩

/-- Outcome of the sync run of `env5a` on the store with the featured row. -/
def oF : FetchOutcome :=
  ((fetchMoviesFromVidsrc 1 env5a stF).toOption).getD ⟨⟨0, 0, 0⟩, stF, 0⟩

/-- Combined catalog invariant: well-formed ids and unique external ids for
both the movie and the TV-show tables. -/
def CatalogInv (st : MemStorage) : Prop :=
  MoviesWf st ∧ UniqueMovieImdbIds st ∧ TVShowsWf st ∧ UniqueTVShowImdbIds st

/-- Combined episode invariant: well-formed ids and unique dedup keys. -/
def EpisodeInv (st : MemStorage) : Prop :=
  EpisodesWf st ∧ UniqueEpisodeKeys st

/-- One episode-sync invocation, as a storage-state transformer. -/
def applyEpisodeSync (st : MemStorage) (pe : Nat × Env) : MemStorage :=
  applySyncOp st (SyncOp.episodeSync pe.1 pe.2)

/-- Stored TV-show row whose imdb id matches `wEp`. -/
def wShowRow : TVShow :=
  ⟨1, "Show", "tt0000002", none, none, none, none, none, none, none, none, none, false, true, 0, 0⟩

/-- Provider episode belonging to the show `"tt0000002"`. -/
def wEp : VidsrcEpisode := ⟨"Ep1", none, none, none, none, none, "tt0000002", 1, 1⟩

/-- Storage holding only the show row for `"tt0000002"`. -/
def stS : MemStorage := ⟨[], [wShowRow], [], [], [], [], 1, 2, 1⟩

/-- Environment whose episodes endpoint returns one episode of `"tt0000002"`. -/
def envE : Env :=
  ⟨0, fun _ => .error (), fun _ => .error (), fun _ => .ok (some [wEp]), fun _ => true⟩

/-- Outcome of the episode sync of `envE` on the empty store (whose show table
does not contain `"tt0000002"`). -/
def oE : FetchOutcome :=
  ((fetchEpisodesFromVidsrc 1 envE st0).toOption).getD ⟨⟨0, 0, 0⟩, st0, 0⟩

/-- Environment whose movies endpoint succeeds on page 1 and throws on every
other page; show and episode endpoints return empty pages. -/
def envR : Env :=
  ⟨0, fun p => if p = 1 then .ok (some [wMovie]) else .error (),
   fun _ => .ok (some []), fun _ => .ok (some []), fun _ => true⟩

/-! ### Generic list lemmas for in-place map updates and lookups -/

theorem find_decomp {α : Type} {p : α → Bool} :
    ∀ {l : List α} {ex : α}, l.find? p = some ex →
      ∃ l1 l2, l = l1 ++ ex :: l2 ∧ (∀ a ∈ l1, p a = false) ∧ p ex = true := by
  intro l
  induction l with
  | nil => intro ex h; simp [List.find?] at h
  | cons a l ih =>
      intro ex h
      by_cases hpa : p a
      · refine ⟨[], l, ?_, by simp, ?_⟩
        · simp only [List.find?, hpa] at h
          simp [Option.some.injEq] at h
          simp [h]
        · simp only [List.find?, hpa] at h
          simp at h
          simpa [← h] using hpa
      · have hpa' : p a = false := by simpa using hpa
        simp only [List.find?, hpa'] at h
        obtain ⟨l1, l2, hl, h1, h2⟩ := ih h
        exact ⟨a :: l1, l2, by simp [hl], by
          intro b hb
          rcases List.mem_cons.1 hb with rfl | hb
          · exact hpa'
          · exact h1 b hb, h2⟩

theorem map_id_of_ne {α : Type} (idf : α → Nat) (f : α → α) :
    ∀ (l : List α) (k : Nat), (∀ a ∈ l, idf a ≠ k) →
      l.map (fun r => if idf r = k then f r else r) = l := by
  intro l
  induction l with
  | nil => intro k _; rfl
  | cons a l ih =>
      intro k h
      have ha : idf a ≠ k := h a (List.mem_cons_self a l)
      simp only [List.map_cons, if_neg ha]
      rw [ih k (fun b hb => h b (List.mem_cons_of_mem a hb))]

theorem map_update_middle {α : Type} (idf : α → Nat) (f : α → α) :
    ∀ (l1 l2 : List α) (ex : α),
      (∀ a ∈ l1, idf a ≠ idf ex) → (∀ a ∈ l2, idf a ≠ idf ex) →
      (l1 ++ ex :: l2).map (fun r => if idf r = idf ex then f r else r) =
        l1 ++ f ex :: l2 := by
  intro l1
  induction l1 with
  | nil =>
      intro l2 ex _ h2
      simp only [List.nil_append, List.map_cons, if_pos rfl, eq_self_iff_true, if_true]
      rw [map_id_of_ne idf f l2 (idf ex) h2]
  | cons a l1 ih =>
      intro l2 ex h1 h2
      have ha : idf a ≠ idf ex := h1 a (List.mem_cons_self a l1)
      simp only [List.cons_append, List.map_cons, if_neg ha]
      rw [ih l2 ex (fun b hb => h1 b (List.mem_cons_of_mem a hb)) h2]

theorem find_append_of_none {α : Type} {q : α → Bool} :
    ∀ {l1 : List α} (l2 : List α), (∀ a ∈ l1, q a = false) →
      (l1 ++ l2).find? q = l2.find? q := by
  intro l1
  induction l1 with
  | nil => intro l2 _; rfl
  | cons a l1 ih =>
      intro l2 h
      have ha : q a = false := h a (List.mem_cons_self a l1)
      simp only [List.cons_append, List.find?, ha]
      exact ih l2 (fun b hb => h b (List.mem_cons_of_mem a hb))

theorem find_middle_congr {α : Type} {q : α → Bool} :
    ∀ (l1 l2 : List α) (x y : α), q x = false → q y = false →
      (l1 ++ x :: l2).find? q = (l1 ++ y :: l2).find? q := by
  intro l1
  induction l1 with
  | nil => intro l2 x y hx hy; simp only [List.nil_append, List.find?, hx, hy]
  | cons a l1 ih =>
      intro l2 x y hx hy
      simp only [List.cons_append, List.find?]
      cases q a
      · exact ih l2 x y hx hy
      · rfl

theorem find_append_singleton {α : Type} (q : α → Bool) :
    ∀ (l : List α) (b : α),
      (l ++ [b]).find? q =
        match l.find? q with
        | some r => some r
        | none => if q b then some b else none := by
  intro l
  induction l with
  | nil => intro b; simp only [List.nil_append, List.find?]; cases hb : q b <;> simp [hb]
  | cons a l ih =>
      intro b
      simp only [List.cons_append, List.find?]
      cases q a
      · exact ih b
      · rfl

/-! ### Lemmas about the movie table operations -/

theorem getMovieByImdbId_spec {st : MemStorage} {x : String} {ex : Movie}
    (h : st.getMovieByImdbId x = some ex) : ex ∈ st.movies ∧ ex.imdbId = x := by
  refine ⟨List.mem_of_find?_eq_some h, ?_⟩
  have := List.find?_some h
  exact eq_of_beq this

theorem updateMovie_decomp {st : MemStorage} {x : String} {ex : Movie} (d : InsertMovie) (now : Int)
    (hpw : (st.movies.map Movie.id).Pairwise (· ≠ ·))
    (h : st.getMovieByImdbId x = some ex) :
    ∃ l1 l2, st.movies = l1 ++ ex :: l2 ∧
      (st.updateMovie ex.id d now).movies = l1 ++ MemStorage.Movie.applyInsert ex d now :: l2 ∧
      (∀ a ∈ l1, (a.imdbId == x) = false) := by
  obtain ⟨l1, l2, hl, h1, _⟩ := find_decomp h
  refine ⟨l1, l2, hl, ?_, h1⟩
  rw [hl] at hpw
  rw [List.map_append, List.map_cons] at hpw
  rw [List.pairwise_append] at hpw
  obtain ⟨_, hpc, hcross⟩ := hpw
  rw [List.pairwise_cons] at hpc
  have hne1 : ∀ a ∈ l1, a.id ≠ ex.id := by
    intro a ha
    exact hcross _ (List.mem_map_of_mem Movie.id ha) _ (List.mem_cons_self _ _)
  have hne2 : ∀ a ∈ l2, a.id ≠ ex.id := by
    intro a ha
    exact fun hc => (hpc.1 _ (List.mem_map_of_mem Movie.id ha)) hc.symm
  show (st.movies.map fun r => if r.id = ex.id then MemStorage.Movie.applyInsert r d now else r) = _
  rw [hl]
  exact map_update_middle Movie.id (fun r => MemStorage.Movie.applyInsert r d now) l1 l2 ex hne1 hne2

theorem updateMovie_lookup_self {st : MemStorage} {x : String} {ex : Movie} {d : InsertMovie} {now : Int}
    (hpw : (st.movies.map Movie.id).Pairwise (· ≠ ·))
    (h : st.getMovieByImdbId x = some ex) (hd : d.imdbId = x) :
    (st.updateMovie ex.id d now).getMovieByImdbId x =
      some (MemStorage.Movie.applyInsert ex d now) := by
  obtain ⟨l1, l2, _, hupd, hl1⟩ := updateMovie_decomp d now hpw h
  show ((st.updateMovie ex.id d now).movies.find? fun m => m.imdbId == x) = _
  rw [hupd, find_append_of_none _ hl1]
  have hpred : ((MemStorage.Movie.applyInsert ex d now).imdbId == x) = true := by
    simp [MemStorage.Movie.applyInsert, hd]
  simp [List.find?, hpred]

theorem updateMovie_lookup_other {st : MemStorage} {x : String} {ex : Movie} {d : InsertMovie} {now : Int}
    (hpw : (st.movies.map Movie.id).Pairwise (· ≠ ·))
    (h : st.getMovieByImdbId x = some ex) (hd : d.imdbId = x)
    (y : String) (hy : y ≠ x) :
    (st.updateMovie ex.id d now).getMovieByImdbId y = st.getMovieByImdbId y := by
  obtain ⟨l1, l2, hl, hupd, _⟩ := updateMovie_decomp d now hpw h
  have hxeq : ex.imdbId = x := (getMovieByImdbId_spec h).2
  show ((st.updateMovie ex.id d now).movies.find? fun m => m.imdbId == y) =
    (st.movies.find? fun m => m.imdbId == y)
  rw [hupd, hl]
  have hx : ((MemStorage.Movie.applyInsert ex d now).imdbId == y) = false := by
    simp [MemStorage.Movie.applyInsert, hd]
    exact fun hc => hy hc.symm
  have hx2 : (ex.imdbId == y) = false := by
    simp [hxeq]
    exact fun hc => hy hc.symm
  exact (find_middle_congr l1 l2 _ _ hx hx2)

theorem updateMovie_map_imdb {st : MemStorage} {x : String} {ex : Movie} {d : InsertMovie} {now : Int}
    (hpw : (st.movies.map Movie.id).Pairwise (· ≠ ·))
    (h : st.getMovieByImdbId x = some ex) (hd : d.imdbId = x) :
    (st.updateMovie ex.id d now).movies.map Movie.imdbId = st.movies.map Movie.imdbId := by
  obtain ⟨l1, l2, hl, hupd, _⟩ := updateMovie_decomp d now hpw h
  have hxeq : ex.imdbId = x := (getMovieByImdbId_spec h).2
  rw [hupd, hl]
  simp [MemStorage.Movie.applyInsert, hd, hxeq]

theorem updateMovie_map_id {st : MemStorage} {x : String} {ex : Movie} {d : InsertMovie} {now : Int}
    (hpw : (st.movies.map Movie.id).Pairwise (· ≠ ·))
    (h : st.getMovieByImdbId x = some ex) :
    (st.updateMovie ex.id d now).movies.map Movie.id = st.movies.map Movie.id := by
  obtain ⟨l1, l2, hl, hupd, _⟩ := updateMovie_decomp d now hpw h
  rw [hupd, hl]
  simp [MemStorage.Movie.applyInsert]

theorem updateMovie_length (st : MemStorage) (i : Nat) (d : InsertMovie) (now : Int) :
    (st.updateMovie i d now).movies.length = st.movies.length := by
  show (st.movies.map _).length = _
  exact List.length_map _ _

theorem updateMovie_wf {st : MemStorage} {x : String} {ex : Movie} {d : InsertMovie} {now : Int}
    (hwf : MoviesWf st) (h : st.getMovieByImdbId x = some ex) :
    MoviesWf (st.updateMovie ex.id d now) := by
  constructor
  · show ((st.updateMovie ex.id d now).movies.map Movie.id).Pairwise (· ≠ ·)
    rw [updateMovie_map_id hwf.1 h]
    exact hwf.1
  · intro r hr
    have : r.id ∈ (st.updateMovie ex.id d now).movies.map Movie.id :=
      List.mem_map_of_mem Movie.id hr
    rw [updateMovie_map_id hwf.1 h] at this
    obtain ⟨r', hr', hid⟩ := List.mem_map.1 this
    have := hwf.2 r' hr'
    show r.id < st.currentMovieIds
    omega

theorem updateMovie_uniq {st : MemStorage} {x : String} {ex : Movie} {d : InsertMovie} {now : Int}
    (hwf : MoviesWf st) (hu : UniqueMovieImdbIds st)
    (h : st.getMovieByImdbId x = some ex) (hd : d.imdbId = x) :
    UniqueMovieImdbIds (st.updateMovie ex.id d now) := by
  show ((st.updateMovie ex.id d now).movies.map Movie.imdbId).Pairwise (· ≠ ·)
  rw [updateMovie_map_imdb hwf.1 h hd]
  exact hu

theorem createMovie_map_imdb (st : MemStorage) (d : InsertMovie) (now : Int) :
    (st.createMovie d now).movies.map Movie.imdbId =
      st.movies.map Movie.imdbId ++ [d.imdbId] := by
  simp [MemStorage.createMovie]

theorem createMovie_map_id (st : MemStorage) (d : InsertMovie) (now : Int) :
    (st.createMovie d now).movies.map Movie.id =
      st.movies.map Movie.id ++ [st.currentMovieIds] := by
  simp [MemStorage.createMovie]

theorem createMovie_length (st : MemStorage) (d : InsertMovie) (now : Int) :
    (st.createMovie d now).movies.length = st.movies.length + 1 := by
  simp [MemStorage.createMovie]

theorem createMovie_wf {st : MemStorage} (d : InsertMovie) (now : Int)
    (hwf : MoviesWf st) : MoviesWf (st.createMovie d now) := by
  constructor
  · rw [createMovie_map_id]
    rw [List.pairwise_append]
    refine ⟨hwf.1, List.pairwise_singleton _ _, ?_⟩
    intro a ha b hb
    obtain ⟨r, hr, hid⟩ := List.mem_map.1 ha
    have := hwf.2 r hr
    have hb' : b = st.currentMovieIds := by simpa using hb
    omega
  · intro r hr
    show r.id < st.currentMovieIds + 1
    rcases List.mem_append.1 hr with hr | hr
    · have := hwf.2 r hr
      omega
    · have : r.id = st.currentMovieIds := by
        simp [MemStorage.createMovie] at hr
        · rw [hr]
      omega

theorem createMovie_uniq {st : MemStorage} {d : InsertMovie} {now : Int}
    (hu : UniqueMovieImdbIds st) (hnone : st.getMovieByImdbId d.imdbId = none) :
    UniqueMovieImdbIds (st.createMovie d now) := by
  show ((st.createMovie d now).movies.map Movie.imdbId).Pairwise (· ≠ ·)
  rw [createMovie_map_imdb]
  rw [List.pairwise_append]
  refine ⟨hu, List.pairwise_singleton _ _, ?_⟩
  intro a ha b hb
  obtain ⟨r, hr, hid⟩ := List.mem_map.1 ha
  have hall := List.find?_eq_none.1 hnone
  have := hall r hr
  have hb' : b = d.imdbId := by simpa using hb
  subst hb'
  subst hid
  intro hc
  exact this (by simp [hc])

theorem createMovie_lookup_self {st : MemStorage} {d : InsertMovie} {now : Int}
    (hnone : st.getMovieByImdbId d.imdbId = none) :
    ∃ r, (st.createMovie d now).getMovieByImdbId d.imdbId = some r ∧
      r.isFeatured = d.isFeatured ∧ r.isVisible = d.isVisible := by
  show ∃ r, ((st.createMovie d now).movies.find? fun m => m.imdbId == d.imdbId) = some r ∧ _
  have : (st.createMovie d now).movies = st.movies ++
      [{ id := st.currentMovieIds, title := d.title, imdbId := d.imdbId,
         tmdbId := d.tmdbId, year := d.year, poster := d.poster, plot := d.plot,
         rating := d.rating, runtime := d.runtime, genre := d.genre,
         director := d.director, actors := d.actors, isFeatured := d.isFeatured,
         isVisible := d.isVisible, createdAt := now, lastUpdated := now }] := rfl
  rw [this, find_append_singleton]
  rw [show (st.movies.find? fun m => m.imdbId == d.imdbId) = none from hnone]
  simp

theorem createMovie_lookup_other {st : MemStorage} {d : InsertMovie} {now : Int}
    (y : String) (hy : y ≠ d.imdbId) :
    (st.createMovie d now).getMovieByImdbId y = st.getMovieByImdbId y := by
  show ((st.createMovie d now).movies.find? fun m => m.imdbId == y) = _
  have : (st.createMovie d now).movies = st.movies ++
      [{ id := st.currentMovieIds, title := d.title, imdbId := d.imdbId,
         tmdbId := d.tmdbId, year := d.year, poster := d.poster, plot := d.plot,
         rating := d.rating, runtime := d.runtime, genre := d.genre,
         director := d.director, actors := d.actors, isFeatured := d.isFeatured,
         isVisible := d.isVisible, createdAt := now, lastUpdated := now }] := rfl
  rw [this, find_append_singleton]
  have hne : (d.imdbId == y) = false := by
    simp
    exact fun hc => hy hc.symm
  rcases hf : st.movies.find? fun m => m.imdbId == y with _ | r
  · simp [hf, MemStorage.getMovieByImdbId, hne]
  · simp [hf, MemStorage.getMovieByImdbId]

/-! ### Lemmas about the per-title movie loop -/

theorem processMoviesStep_frame (now : Int) (acc : MemStorage × Nat × Nat) (m : VidsrcMovie) :
    (processMoviesStep now acc m).1.tvShows = acc.1.tvShows ∧
    (processMoviesStep now acc m).1.episodes = acc.1.episodes ∧
    (processMoviesStep now acc m).1.movieCache = acc.1.movieCache ∧
    (processMoviesStep now acc m).1.tvShowCache = acc.1.tvShowCache ∧
    (processMoviesStep now acc m).1.episodeCache = acc.1.episodeCache ∧
    (processMoviesStep now acc m).1.currentTVShowIds = acc.1.currentTVShowIds ∧
    (processMoviesStep now acc m).1.currentEpisodeIds = acc.1.currentEpisodeIds := by
  rcases h : acc.1.getMovieByImdbId m.imdb_id with _ | ex <;>
    simp [processMoviesStep, h, MemStorage.createMovie, MemStorage.updateMovie]

theorem processMoviesStep_wf (now : Int) (acc : MemStorage × Nat × Nat) (m : VidsrcMovie)
    (hwf : MoviesWf acc.1) : MoviesWf (processMoviesStep now acc m).1 := by
  rcases h : acc.1.getMovieByImdbId m.imdb_id with _ | ex
  · simp only [processMoviesStep, h]
    exact createMovie_wf _ _ hwf
  · simp only [processMoviesStep, h]
    exact updateMovie_wf hwf h

theorem processMoviesStep_uniq (now : Int) (acc : MemStorage × Nat × Nat) (m : VidsrcMovie)
    (hwf : MoviesWf acc.1) (hu : UniqueMovieImdbIds acc.1) :
    UniqueMovieImdbIds (processMoviesStep now acc m).1 := by
  rcases h : acc.1.getMovieByImdbId m.imdb_id with _ | ex
  · simp only [processMoviesStep, h]
    exact createMovie_uniq hu h
  · simp only [processMoviesStep, h]
    exact updateMovie_uniq hwf hu h rfl

theorem processMoviesStep_lookup_self (now : Int) (acc : MemStorage × Nat × Nat) (m : VidsrcMovie)
    (hwf : MoviesWf acc.1) :
    ∃ r, (processMoviesStep now acc m).1.getMovieByImdbId m.imdb_id = some r ∧
      r.isFeatured = false ∧ r.isVisible = true := by
  rcases h : acc.1.getMovieByImdbId m.imdb_id with _ | ex
  · simp only [processMoviesStep, h]
    exact createMovie_lookup_self h
  · simp only [processMoviesStep, h]
    refine ⟨MemStorage.Movie.applyInsert ex (movieDataOf m) now, ?_, rfl, rfl⟩
    exact updateMovie_lookup_self hwf.1 h rfl

theorem processMoviesStep_lookup_other (now : Int) (acc : MemStorage × Nat × Nat) (m : VidsrcMovie)
    (hwf : MoviesWf acc.1) (y : String) (hy : y ≠ m.imdb_id) :
    (processMoviesStep now acc m).1.getMovieByImdbId y = acc.1.getMovieByImdbId y := by
  rcases h : acc.1.getMovieByImdbId m.imdb_id with _ | ex
  · simp only [processMoviesStep, h]
    exact createMovie_lookup_other y hy
  · simp only [processMoviesStep, h]
    exact updateMovie_lookup_other hwf.1 h rfl y hy

theorem processMoviesStep_present (now : Int) (acc : MemStorage × Nat × Nat) (m : VidsrcMovie)
    (hwf : MoviesWf acc.1) (y : String)
    (hp : (acc.1.getMovieByImdbId y).isSome = true) :
    ((processMoviesStep now acc m).1.getMovieByImdbId y).isSome = true := by
  by_cases hxy : y = m.imdb_id
  · subst hxy
    obtain ⟨r, hr, _, _⟩ := processMoviesStep_lookup_self now acc m hwf
    rw [hr]
    rfl
  · rw [processMoviesStep_lookup_other now acc m hwf y hxy]
    exact hp

theorem processMoviesStep_added_len (now : Int) (acc : MemStorage × Nat × Nat) (m : VidsrcMovie)
    (hp : (acc.1.getMovieByImdbId m.imdb_id).isSome = true) :
    (processMoviesStep now acc m).2.1 = acc.2.1 ∧
    (processMoviesStep now acc m).1.movies.length = acc.1.movies.length := by
  rcases h : acc.1.getMovieByImdbId m.imdb_id with _ | ex
  · rw [h] at hp
    simp at hp
  · constructor
    · simp [processMoviesStep, h]
    · simp only [processMoviesStep, h]
      exact updateMovie_length _ _ _ _

theorem processMovies_go_wf (now : Int) :
    ∀ (l : List VidsrcMovie) (acc : MemStorage × Nat × Nat), MoviesWf acc.1 →
      MoviesWf (l.foldl (processMoviesStep now) acc).1 := by
  intro l
  induction l with
  | nil => intro acc h; exact h
  | cons m l ih => intro acc h; exact ih _ (processMoviesStep_wf now acc m h)

theorem processMovies_go_uniq (now : Int) :
    ∀ (l : List VidsrcMovie) (acc : MemStorage × Nat × Nat),
      MoviesWf acc.1 → UniqueMovieImdbIds acc.1 →
      UniqueMovieImdbIds (l.foldl (processMoviesStep now) acc).1 := by
  intro l
  induction l with
  | nil => intro acc _ hu; exact hu
  | cons m l ih =>
      intro acc h hu
      exact ih _ (processMoviesStep_wf now acc m h) (processMoviesStep_uniq now acc m h hu)

theorem processMovies_go_present (now : Int) :
    ∀ (l : List VidsrcMovie) (acc : MemStorage × Nat × Nat) (y : String),
      MoviesWf acc.1 → (acc.1.getMovieByImdbId y).isSome = true →
      ((l.foldl (processMoviesStep now) acc).1.getMovieByImdbId y).isSome = true := by
  intro l
  induction l with
  | nil => intro acc y _ hp; exact hp
  | cons m l ih =>
      intro acc y h hp
      exact ih _ y (processMoviesStep_wf now acc m h) (processMoviesStep_present now acc m h y hp)

theorem processMovies_go_all_present (now : Int) :
    ∀ (l : List VidsrcMovie) (acc : MemStorage × Nat × Nat), MoviesWf acc.1 →
      ∀ m ∈ l, (((l.foldl (processMoviesStep now) acc).1).getMovieByImdbId m.imdb_id).isSome = true := by
  intro l
  induction l with
  | nil => intro acc _ m hm; exact absurd hm (List.not_mem_nil m)
  | cons m0 l ih =>
      intro acc h m hm
      rcases List.mem_cons.1 hm with rfl | hm
      · have hwf' := processMoviesStep_wf now acc m h
        obtain ⟨r, hr, _, _⟩ := processMoviesStep_lookup_self now acc m h
        refine processMovies_go_present now l _ m.imdb_id hwf' ?_
        rw [hr]
        rfl
      · exact ih _ (processMoviesStep_wf now acc m0 h) m hm

theorem processMovies_go_added (now : Int) :
    ∀ (l : List VidsrcMovie) (acc : MemStorage × Nat × Nat), MoviesWf acc.1 →
      (∀ m ∈ l, (acc.1.getMovieByImdbId m.imdb_id).isSome = true) →
      (l.foldl (processMoviesStep now) acc).2.1 = acc.2.1 ∧
      (l.foldl (processMoviesStep now) acc).1.movies.length = acc.1.movies.length := by
  intro l
  induction l with
  | nil => intro acc _ _; exact ⟨rfl, rfl⟩
  | cons m l ih =>
      intro acc h hp
      have hm := hp m (List.mem_cons_self m l)
      have hstep := processMoviesStep_added_len now acc m hm
      have hwf' := processMoviesStep_wf now acc m h
      have hp' : ∀ m' ∈ l, ((processMoviesStep now acc m).1.getMovieByImdbId m'.imdb_id).isSome = true :=
        fun m' hm' => processMoviesStep_present now acc m h m'.imdb_id (hp m' (List.mem_cons_of_mem m hm'))
      obtain ⟨ha, hl⟩ := ih (processMoviesStep now acc m) hwf' hp'
      exact ⟨by rw [List.foldl_cons, ha, hstep.1], by rw [List.foldl_cons, hl, hstep.2]⟩

theorem processMovies_go_flags_preserved (now : Int) :
    ∀ (l : List VidsrcMovie) (acc : MemStorage × Nat × Nat) (x : String),
      MoviesWf acc.1 →
      (∃ r, acc.1.getMovieByImdbId x = some r ∧ r.isFeatured = false ∧ r.isVisible = true) →
      ∃ r, (l.foldl (processMoviesStep now) acc).1.getMovieByImdbId x = some r ∧
        r.isFeatured = false ∧ r.isVisible = true := by
  intro l
  induction l with
  | nil => intro acc x _ hq; exact hq
  | cons m l ih =>
      intro acc x h hq
      refine ih _ x (processMoviesStep_wf now acc m h) ?_
      by_cases hxy : x = m.imdb_id
      · subst hxy
        exact processMoviesStep_lookup_self now acc m h
      · rw [processMoviesStep_lookup_other now acc m h x hxy]
        exact hq

theorem processMovies_go_flags (now : Int) :
    ∀ (l : List VidsrcMovie) (acc : MemStorage × Nat × Nat), MoviesWf acc.1 →
      ∀ m ∈ l, ∃ r, ((l.foldl (processMoviesStep now) acc).1.getMovieByImdbId m.imdb_id) = some r ∧
        r.isFeatured = false ∧ r.isVisible = true := by
  intro l
  induction l with
  | nil => intro acc _ m hm; exact absurd hm (List.not_mem_nil m)
  | cons m0 l ih =>
      intro acc h m hm
      rcases List.mem_cons.1 hm with rfl | hm
      · exact processMovies_go_flags_preserved now l _ m.imdb_id
          (processMoviesStep_wf now acc m h) (processMoviesStep_lookup_self now acc m h)
      · exact ih _ (processMoviesStep_wf now acc m0 h) m hm

theorem processMovies_go_lookup_frame (now : Int) :
    ∀ (l : List VidsrcMovie) (acc : MemStorage × Nat × Nat) (y : String),
      MoviesWf acc.1 → (∀ m ∈ l, m.imdb_id ≠ y) →
      (l.foldl (processMoviesStep now) acc).1.getMovieByImdbId y = acc.1.getMovieByImdbId y := by
  intro l
  induction l with
  | nil => intro acc y _ _; rfl
  | cons m l ih =>
      intro acc y h hy
      rw [List.foldl_cons,
        ih _ y (processMoviesStep_wf now acc m h) (fun m' hm' => hy m' (List.mem_cons_of_mem m hm'))]
      exact processMoviesStep_lookup_other now acc m h y
        (fun hc => hy m (List.mem_cons_self m l) hc.symm)

theorem processMovies_go_frame (now : Int) :
    ∀ (l : List VidsrcMovie) (acc : MemStorage × Nat × Nat),
      (l.foldl (processMoviesStep now) acc).1.tvShows = acc.1.tvShows ∧
      (l.foldl (processMoviesStep now) acc).1.episodes = acc.1.episodes ∧
      (l.foldl (processMoviesStep now) acc).1.movieCache = acc.1.movieCache ∧
      (l.foldl (processMoviesStep now) acc).1.tvShowCache = acc.1.tvShowCache ∧
      (l.foldl (processMoviesStep now) acc).1.episodeCache = acc.1.episodeCache ∧
      (l.foldl (processMoviesStep now) acc).1.currentTVShowIds = acc.1.currentTVShowIds ∧
      (l.foldl (processMoviesStep now) acc).1.currentEpisodeIds = acc.1.currentEpisodeIds := by
  intro l
  induction l with
  | nil => intro acc; exact ⟨rfl, rfl, rfl, rfl, rfl, rfl, rfl⟩
  | cons m l ih =>
      intro acc
      have h1 := processMoviesStep_frame now acc m
      have h2 := ih (processMoviesStep now acc m)
      rw [List.foldl_cons]
      exact ⟨h2.1.trans h1.1, h2.2.1.trans h1.2.1, h2.2.2.1.trans h1.2.2.1,
        h2.2.2.2.1.trans h1.2.2.2.1, h2.2.2.2.2.1.trans h1.2.2.2.2.1,
        h2.2.2.2.2.2.1.trans h1.2.2.2.2.2.1, h2.2.2.2.2.2.2.trans h1.2.2.2.2.2.2⟩

/-! ### Cache and fetch-level lemmas for the movies endpoint -/

theorem cache_map_replace_find {α : Type} (k : Nat) (v : α) :
    ∀ (l : List (Nat × α)),
      ((l.map (fun p => if p.1 = k then (k, v) else p)).find? (fun p => p.1 == k)) =
        ((l.find? (fun p => p.1 == k)).map (fun _ => (k, v))) := by
  intro l
  induction l with
  | nil => rfl
  | cons a l ih =>
      by_cases ha : a.1 = k
      · simp [List.find?, ha]
      · have ha' : (a.1 == k) = false := by simpa using ha
        simp [List.find?, ha, ha', ih]

theorem cacheGet_cachePut_self {α : Type} (l : List (Nat × α)) (k : Nat) (v : α) :
    MemStorage.cacheGet (MemStorage.cachePut l k v) k = some v := by
  unfold MemStorage.cachePut MemStorage.cacheGet
  by_cases h : (l.find? (fun p => p.1 == k)).isSome
  · rw [if_pos h, cache_map_replace_find]
    obtain ⟨pr, hpr⟩ := Option.isSome_iff_exists.1 h
    rw [hpr]
    rfl
  · rw [if_neg h, find_append_singleton]
    have hn : l.find? (fun p => p.1 == k) = none := by
      cases hh : l.find? (fun p => p.1 == k)
      · rfl
      · rw [hh] at h
        simp at h
    rw [hn]
    simp

theorem fetchMovies_ok_net_one {page : Nat} {env : Env} {st : MemStorage} {o : FetchOutcome}
    (h : fetchMoviesFromVidsrc page env st = .ok o) (hnet : o.networkCalls = 1) :
    fetchMoviesNetwork page env st = .ok o := by
  unfold fetchMoviesFromVidsrc at h
  rcases hc : MemStorage.cacheGet st.movieCache page with _ | cached
  · rw [hc] at h
    exact h
  · simp only [hc] at h
    by_cases hf : isCacheFresh env.now cached.lastUpdated oneHourMs
    · rw [if_pos hf] at h
      rcases hd : cached.data with _ | l
      · rw [hd] at h
        exact h
      · rw [hd] at h
        injection h with h2
        rw [← h2] at hnet
        simp at hnet
    · rw [if_neg hf] at h
      exact h

theorem fetchMoviesNetwork_resp_some (page : Nat) (env : Env) (st : MemStorage)
    (l : List VidsrcMovie) (hresp : env.moviesResp page = .ok (some l)) :
    fetchMoviesNetwork page env st = .ok
      { result := { added := (processMovies l env.now (moviesCacheState page env st l)).2.1,
                    updated := (processMovies l env.now (moviesCacheState page env st l)).2.2,
                    total := l.length },
        state := (processMovies l env.now (moviesCacheState page env st l)).1,
        networkCalls := 1 } := by
  unfold fetchMoviesNetwork moviesCacheState
  rw [hresp]

theorem fetchMovies_cacheHit_aux (page : Nat) (env : Env) (st : MemStorage)
    (entry : MovieCacheEntry) (l : List VidsrcMovie)
    (hc : MemStorage.cacheGet st.movieCache page = some entry)
    (hfresh : env.now - entry.lastUpdated < oneHourMs)
    (hdata : entry.data = some l) :
    fetchMoviesFromVidsrc page env st =
      .ok { result := { added := 0, updated := 0, total := l.length },
            state := st, networkCalls := 0 } := by
  unfold fetchMoviesFromVidsrc
  simp only [hc]
  have hb : isCacheFresh env.now entry.lastUpdated oneHourMs = true := by
    simp [isCacheFresh]
    exact hfresh
  rw [if_pos hb, hdata]

theorem fetchMovies_stale_aux (page : Nat) (env : Env) (st : MemStorage)
    (entry : MovieCacheEntry)
    (hc : MemStorage.cacheGet st.movieCache page = some entry)
    (hstale : oneHourMs ≤ env.now - entry.lastUpdated) :
    fetchMoviesFromVidsrc page env st = fetchMoviesNetwork page env st := by
  unfold fetchMoviesFromVidsrc
  simp only [hc]
  have hb : ¬ isCacheFresh env.now entry.lastUpdated oneHourMs = true := by
    simp [isCacheFresh]
    omega
  rw [if_neg hb]

theorem fetchMovies_env_congr (page : Nat) (e1 e2 : Env) (st : MemStorage)
    (hnow : e1.now = e2.now) (hresp : e1.moviesResp = e2.moviesResp) :
    fetchMoviesFromVidsrc page e1 st = fetchMoviesFromVidsrc page e2 st := by
  cases e1
  cases e2
  simp only [] at hnow hresp
  subst hnow
  subst hresp
  rfl

/-! ### Claim theorems: movies sync (C1, C2, C3, C5, C9) -/

/-- Claim C3: for every page whose cache entry is fresh (written less than one
hour ago) and parseable, the discovery call returns immediately with
`added = 0`, `updated = 0` and `total` equal to the number of items in the
cached payload, performs no network request (`networkCalls = 0`), and performs
no per-title persistence writes (the storage state is returned unchanged). -/
theorem fetchMovies_cacheHit_returns_immediately (page : Nat) (env : Env) (st : MemStorage)
    (entry : MovieCacheEntry) (l : List VidsrcMovie)
    (hc : MemStorage.cacheGet st.movieCache page = some entry)
    (hfresh : env.now - entry.lastUpdated < oneHourMs)
    (hdata : entry.data = some l) :
    fetchMoviesFromVidsrc page env st =
      .ok { result := { added := 0, updated := 0, total := l.length },
            state := st, networkCalls := 0 } :=
  fetchMovies_cacheHit_aux page env st entry l hc hfresh hdata

/-- Witness for C3: on a store whose only content is a fresh one-movie cache
entry, and an environment whose network always throws, the fetch returns the
cached length with zero counts, an unchanged store, and no network call. -/
theorem fetchMovies_cacheHit_returns_immediately_witness :
    fetchMoviesFromVidsrc 1 wEnv wState =
      .ok { result := { added := 0, updated := 0, total := 1 },
            state := wState, networkCalls := 0 } :=
  fetchMovies_cacheHit_returns_immediately 1 wEnv wState wEntry [wMovie] rfl (by decide) rfl

/-- Claim C9: a movie-listing cache entry written at time `T` is treated as
fresh by the one-hour-TTL caller exactly when `now - T < oneHourMs` (strict):
below the boundary the call is served from cache with no network call, and at
or above it the call takes the network path, which performs exactly one network
request whenever it returns successfully. -/
theorem cache_freshness_boundary (page : Nat) (env : Env) (st : MemStorage)
    (entry : MovieCacheEntry) (l : List VidsrcMovie)
    (hc : MemStorage.cacheGet st.movieCache page = some entry)
    (hdata : entry.data = some l) :
    (env.now - entry.lastUpdated < oneHourMs →
      fetchMoviesFromVidsrc page env st =
        .ok { result := { added := 0, updated := 0, total := l.length },
              state := st, networkCalls := 0 }) ∧
    (oneHourMs ≤ env.now - entry.lastUpdated →
      fetchMoviesFromVidsrc page env st = fetchMoviesNetwork page env st) ∧
    (∀ o, fetchMoviesNetwork page env st = .ok o → o.networkCalls = 1) := by
  refine ⟨fun h => fetchMovies_cacheHit_aux page env st entry l hc h hdata,
    fun h => fetchMovies_stale_aux page env st entry hc h, fun o ho => ?_⟩
  unfold fetchMoviesNetwork at ho
  rcases hr : env.moviesResp page with _ | ll
  · rw [hr] at ho
    exact absurd ho (by simp)
  · rcases ll with _ | l'
    · rw [hr] at ho
      injection ho with h2
      rw [← h2]
    · rw [hr] at ho
      injection ho with h2
      rw [← h2]

/-- Witness for C9: with the cache entry written at time `0`, the fetch at
`now = 3599999` (age `oneHourMs - 1`) is served from the cache with no network
call, and the fetch at `now = 3600000` (age exactly `oneHourMs`) takes the
network path. -/
theorem cache_freshness_boundary_witness :
    (fetchMoviesFromVidsrc 1 w9EnvFresh wState =
      .ok { result := { added := 0, updated := 0, total := 1 },
            state := wState, networkCalls := 0 }) ∧
    (fetchMoviesFromVidsrc 1 w9EnvStale wState = fetchMoviesNetwork 1 w9EnvStale wState) :=
  ⟨(cache_freshness_boundary 1 w9EnvFresh wState wEntry [wMovie] rfl rfl).1 (by decide),
   (cache_freshness_boundary 1 w9EnvStale wState wEntry [wMovie] rfl rfl).2.1 (by decide)⟩

/-- Claim C5: running `fetchMoviesFromVidsrc` for a fixed page twice in
succession with the provider returning identical data and no other writers
makes the second run report `added = 0` and leaves the number of persisted
movie rows exactly as it was after the first run; this covers both the case
where the second run hits the still-fresh cache and the case where it
re-fetches and finds every item already present.  The well-formedness
hypothesis (distinct row ids below the id counter) holds in every store
`MemStorage` can build. -/
theorem syncMovies_idempotent (page : Nat) (env1 env2 : Env) (st : MemStorage)
    (o1 : FetchOutcome) (l : List VidsrcMovie)
    (hwf : MoviesWf st)
    (h1 : fetchMoviesFromVidsrc page env1 st = .ok o1)
    (hnet : o1.networkCalls = 1)
    (hresp1 : env1.moviesResp page = .ok (some l))
    (hresp2 : env2.moviesResp page = .ok (some l)) :
    ∃ o2, fetchMoviesFromVidsrc page env2 o1.state = .ok o2 ∧
      o2.result.added = 0 ∧ o2.state.movies.length = o1.state.movies.length := by
  have hn := fetchMovies_ok_net_one h1 hnet
  rw [fetchMoviesNetwork_resp_some page env1 st l hresp1] at hn
  injection hn with ho1
  have hwfS1 : MoviesWf (moviesCacheState page env1 st l) := hwf
  have hstate : o1.state = (processMovies l env1.now (moviesCacheState page env1 st l)).1 := by
    rw [← ho1]
  have hwf1 : MoviesWf o1.state := by
    rw [hstate]
    exact processMovies_go_wf env1.now l _ hwfS1
  have hpresent : ∀ m ∈ l, (o1.state.getMovieByImdbId m.imdb_id).isSome = true := by
    intro m hm
    rw [hstate]
    exact processMovies_go_all_present env1.now l _ hwfS1 m hm
  have hcache : MemStorage.cacheGet o1.state.movieCache page =
      some (MovieCacheEntry.mk (some l) env1.now) := by
    have hMC : o1.state.movieCache = (moviesCacheState page env1 st l).movieCache := by
      rw [hstate]
      exact (processMovies_go_frame env1.now l _).2.2.1
    rw [hMC]
    exact cacheGet_cachePut_self _ _ _
  by_cases hf2 : env2.now - env1.now < oneHourMs
  · exact ⟨_, fetchMovies_cacheHit_aux page env2 o1.state (MovieCacheEntry.mk (some l) env1.now)
      l hcache hf2 rfl, rfl, rfl⟩
  · have hstale : fetchMoviesFromVidsrc page env2 o1.state = fetchMoviesNetwork page env2 o1.state :=
      fetchMovies_stale_aux page env2 o1.state (MovieCacheEntry.mk (some l) env1.now) hcache
        (by show oneHourMs ≤ env2.now - env1.now; omega)
    rw [hstale, fetchMoviesNetwork_resp_some page env2 o1.state l hresp2]
    have hwfS2 : MoviesWf (moviesCacheState page env2 o1.state l) := hwf1
    have hpres2 : ∀ m ∈ l,
        ((moviesCacheState page env2 o1.state l).getMovieByImdbId m.imdb_id).isSome = true :=
      hpresent
    have hadd := processMovies_go_added env2.now l (moviesCacheState page env2 o1.state l, 0, 0)
      hwfS2 hpres2
    exact ⟨_, rfl, hadd.1, hadd.2⟩

/-- Witness for C5: first run on the empty store adds the one discovered movie;
the second run ten milliseconds later reports `added = 0` and leaves the row
count unchanged. -/
theorem syncMovies_idempotent_witness :
    ∃ o2, fetchMoviesFromVidsrc 1 env5b w5Out.state = .ok o2 ∧
      o2.result.added = 0 ∧ o2.state.movies.length = w5Out.state.movies.length :=
  syncMovies_idempotent 1 env5a env5b st0 w5Out [wMovie]
    ⟨List.Pairwise.nil, by intro r hr; exact absurd hr (List.not_mem_nil r)⟩
    rfl rfl rfl rfl

/-- Counterexample to C1 as stated: the availability prober of the environment
reports `"tt0000001"` unavailable, the store has no row for it, and yet the
sync pass creates a row for it — the per-title loop of `fetchMoviesFromVidsrc`
is not gated on any availability probe. -/
theorem fetchMovies_probe_gate_counterexample :
    env1c.probe "tt0000001" = false ∧
    st0.getMovieByImdbId "tt0000001" = none ∧
    (fetchMoviesFromVidsrc 1 env1c st0).toOption.map
      (fun o => (o.state.getMovieByImdbId "tt0000001").isSome) = some true := by
  refine ⟨rfl, rfl, ?_⟩
  rfl

/-- Claim C1, amended: `fetchMoviesFromVidsrc` performs no availability probe
at all — its outcome is identical under any two environments that agree on the
clock and the movies endpoint but differ arbitrarily in the prober — and on a
processed page it creates or updates a row for every discovered title
regardless of the prober's answers. -/
theorem fetchMovies_no_availability_gate (page : Nat) (e1 e2 : Env) (st : MemStorage)
    (o : FetchOutcome) (l : List VidsrcMovie)
    (hwf : MoviesWf st)
    (hnow : e1.now = e2.now) (hresp : e1.moviesResp = e2.moviesResp)
    (h : fetchMoviesFromVidsrc page e1 st = .ok o) (hnet : o.networkCalls = 1)
    (hl : e1.moviesResp page = .ok (some l)) :
    fetchMoviesFromVidsrc page e2 st = .ok o ∧
    ∀ m ∈ l, (o.state.getMovieByImdbId m.imdb_id).isSome = true := by
  constructor
  · rw [← fetchMovies_env_congr page e1 e2 st hnow hresp]
    exact h
  · have hn := fetchMovies_ok_net_one h hnet
    rw [fetchMoviesNetwork_resp_some page e1 st l hl] at hn
    injection hn with ho
    intro m hm
    rw [← ho]
    exact processMovies_go_all_present e1.now l _ hwf m hm

/-- Witness for C1's amended claim: the run under the all-unavailable prober
(`env1c`) equals the run under the all-available prober (`env5a`), and the one
discovered title has a persisted row afterwards. -/
theorem fetchMovies_no_availability_gate_witness :
    fetchMoviesFromVidsrc 1 env5a st0 = .ok w5Out ∧
    ∀ m ∈ [wMovie], (w5Out.state.getMovieByImdbId m.imdb_id).isSome = true :=
  fetchMovies_no_availability_gate 1 env1c env5a st0 w5Out [wMovie]
    ⟨List.Pairwise.nil, by intro r hr; exact absurd hr (List.not_mem_nil r)⟩
    rfl rfl rfl rfl rfl

/-- Counterexample to C2 as stated: the store holds a featured row for
`"tt0000001"`; after a re-sync of the same title through
`fetchMoviesFromVidsrc`, the row's `isFeatured` has been reset to `false` —
the update payload includes `isFeatured: false, isVisible: true`, so the
existing row's flags are not left untouched. -/
theorem sync_resets_featured_counterexample :
    (stF.getMovieByImdbId "tt0000001").map Movie.isFeatured = some true ∧
    (fetchMoviesFromVidsrc 1 env5a stF).toOption.map
      (fun o => (o.state.getMovieByImdbId "tt0000001").map Movie.isFeatured) =
      some (some false) := by
  refine ⟨rfl, ?_⟩
  rfl

/-- Claim C2, amended: on a processed page, `fetchMoviesFromVidsrc` upserts
every discovered title with a payload whose `isFeatured` is `false` and
`isVisible` is `true` — a newly inserted row gets those values, and an existing
row matched by `imdb_id` has its flags overwritten to the same values (they are
not left untouched); rows whose `imdbId` does not occur in the page are
unchanged. -/
theorem sync_update_overwrites_flags (page : Nat) (env : Env) (st : MemStorage)
    (o : FetchOutcome) (l : List VidsrcMovie)
    (hwf : MoviesWf st)
    (h : fetchMoviesFromVidsrc page env st = .ok o) (hnet : o.networkCalls = 1)
    (hresp : env.moviesResp page = .ok (some l)) :
    (∀ m ∈ l, ∃ r, o.state.getMovieByImdbId m.imdb_id = some r ∧
      r.isFeatured = false ∧ r.isVisible = true) ∧
    (∀ y, (∀ m ∈ l, m.imdb_id ≠ y) →
      o.state.getMovieByImdbId y = st.getMovieByImdbId y) := by
  have hn := fetchMovies_ok_net_one h hnet
  rw [fetchMoviesNetwork_resp_some page env st l hresp] at hn
  injection hn with ho
  constructor
  · intro m hm
    rw [← ho]
    exact processMovies_go_flags env.now l _ hwf m hm
  · intro y hy
    rw [← ho]
    exact processMovies_go_lookup_frame env.now l _ y hwf hy

/-- Witness for C2's amended claim: re-syncing the featured row overwrites its
flags to `isFeatured = false`, `isVisible = true`, and other keys are
untouched. -/
theorem sync_update_overwrites_flags_witness :
    (∀ m ∈ [wMovie], ∃ r, oF.state.getMovieByImdbId m.imdb_id = some r ∧
      r.isFeatured = false ∧ r.isVisible = true) ∧
    (∀ y, (∀ m ∈ [wMovie], m.imdb_id ≠ y) →
      oF.state.getMovieByImdbId y = stF.getMovieByImdbId y) :=
  sync_update_overwrites_flags 1 env5a stF oF [wMovie]
    ⟨List.pairwise_singleton _ _, by
      intro r hr
      rcases List.mem_cons.1 hr with rfl | hr
      · decide
      · exact absurd hr (List.not_mem_nil r)⟩
    rfl rfl rfl

/-! ### Congruence helpers for the invariants -/

theorem MoviesWf_congr {s1 s2 : MemStorage} (h1 : s1.movies = s2.movies)
    (h2 : s1.currentMovieIds = s2.currentMovieIds) (h : MoviesWf s2) : MoviesWf s1 := by
  unfold MoviesWf at h ⊢
  rw [h1, h2]
  exact h

theorem TVShowsWf_congr {s1 s2 : MemStorage} (h1 : s1.tvShows = s2.tvShows)
    (h2 : s1.currentTVShowIds = s2.currentTVShowIds) (h : TVShowsWf s2) : TVShowsWf s1 := by
  unfold TVShowsWf at h ⊢
  rw [h1, h2]
  exact h

theorem EpisodesWf_congr {s1 s2 : MemStorage} (h1 : s1.episodes = s2.episodes)
    (h2 : s1.currentEpisodeIds = s2.currentEpisodeIds) (h : EpisodesWf s2) : EpisodesWf s1 := by
  unfold EpisodesWf at h ⊢
  rw [h1, h2]
  exact h

theorem UniqueMovieImdbIds_congr {s1 s2 : MemStorage} (h1 : s1.movies = s2.movies)
    (h : UniqueMovieImdbIds s2) : UniqueMovieImdbIds s1 := by
  unfold UniqueMovieImdbIds at h ⊢
  rw [h1]
  exact h

theorem UniqueTVShowImdbIds_congr {s1 s2 : MemStorage} (h1 : s1.tvShows = s2.tvShows)
    (h : UniqueTVShowImdbIds s2) : UniqueTVShowImdbIds s1 := by
  unfold UniqueTVShowImdbIds at h ⊢
  rw [h1]
  exact h

theorem UniqueEpisodeKeys_congr {s1 s2 : MemStorage} (h1 : s1.episodes = s2.episodes)
    (h : UniqueEpisodeKeys s2) : UniqueEpisodeKeys s1 := by
  unfold UniqueEpisodeKeys at h ⊢
  rw [h1]
  exact h

/-! ### Lemmas about the TV-show table operations -/

theorem getTVShowByImdbId_spec {st : MemStorage} {x : String} {ex : TVShow}
    (h : st.getTVShowByImdbId x = some ex) : ex ∈ st.tvShows ∧ ex.imdbId = x := by
  refine ⟨List.mem_of_find?_eq_some h, ?_⟩
  have := List.find?_some h
  exact eq_of_beq this

theorem updateTVShow_decomp {st : MemStorage} {x : String} {ex : TVShow} (d : InsertTVShow) (now : Int)
    (hpw : (st.tvShows.map TVShow.id).Pairwise (· ≠ ·))
    (h : st.getTVShowByImdbId x = some ex) :
    ∃ l1 l2, st.tvShows = l1 ++ ex :: l2 ∧
      (st.updateTVShow ex.id d now).tvShows = l1 ++ MemStorage.TVShow.applyInsert ex d now :: l2 ∧
      (∀ a ∈ l1, (a.imdbId == x) = false) := by
  obtain ⟨l1, l2, hl, h1, _⟩ := find_decomp h
  refine ⟨l1, l2, hl, ?_, h1⟩
  rw [hl] at hpw
  rw [List.map_append, List.map_cons] at hpw
  rw [List.pairwise_append] at hpw
  obtain ⟨_, hpc, hcross⟩ := hpw
  rw [List.pairwise_cons] at hpc
  have hne1 : ∀ a ∈ l1, a.id ≠ ex.id := by
    intro a ha
    exact hcross _ (List.mem_map_of_mem TVShow.id ha) _ (List.mem_cons_self _ _)
  have hne2 : ∀ a ∈ l2, a.id ≠ ex.id := by
    intro a ha
    exact fun hc => (hpc.1 _ (List.mem_map_of_mem TVShow.id ha)) hc.symm
  show (st.tvShows.map fun r => if r.id = ex.id then MemStorage.TVShow.applyInsert r d now else r) = _
  rw [hl]
  exact map_update_middle TVShow.id (fun r => MemStorage.TVShow.applyInsert r d now) l1 l2 ex hne1 hne2

theorem updateTVShow_map_imdb {st : MemStorage} {x : String} {ex : TVShow} {d : InsertTVShow} {now : Int}
    (hpw : (st.tvShows.map TVShow.id).Pairwise (· ≠ ·))
    (h : st.getTVShowByImdbId x = some ex) (hd : d.imdbId = x) :
    (st.updateTVShow ex.id d now).tvShows.map TVShow.imdbId = st.tvShows.map TVShow.imdbId := by
  obtain ⟨l1, l2, hl, hupd, _⟩ := updateTVShow_decomp d now hpw h
  have hxeq : ex.imdbId = x := (getTVShowByImdbId_spec h).2
  rw [hupd, hl]
  simp [MemStorage.TVShow.applyInsert, hd, hxeq]

theorem updateTVShow_map_id {st : MemStorage} {x : String} {ex : TVShow} {d : InsertTVShow} {now : Int}
    (hpw : (st.tvShows.map TVShow.id).Pairwise (· ≠ ·))
    (h : st.getTVShowByImdbId x = some ex) :
    (st.updateTVShow ex.id d now).tvShows.map TVShow.id = st.tvShows.map TVShow.id := by
  obtain ⟨l1, l2, hl, hupd, _⟩ := updateTVShow_decomp d now hpw h
  rw [hupd, hl]
  simp [MemStorage.TVShow.applyInsert]

theorem updateTVShow_wf {st : MemStorage} {x : String} {ex : TVShow} {d : InsertTVShow} {now : Int}
    (hwf : TVShowsWf st) (h : st.getTVShowByImdbId x = some ex) :
    TVShowsWf (st.updateTVShow ex.id d now) := by
  constructor
  · show ((st.updateTVShow ex.id d now).tvShows.map TVShow.id).Pairwise (· ≠ ·)
    rw [updateTVShow_map_id hwf.1 h]
    exact hwf.1
  · intro r hr
    have : r.id ∈ (st.updateTVShow ex.id d now).tvShows.map TVShow.id :=
      List.mem_map_of_mem TVShow.id hr
    rw [updateTVShow_map_id hwf.1 h] at this
    obtain ⟨r', hr', hid⟩ := List.mem_map.1 this
    have := hwf.2 r' hr'
    show r.id < st.currentTVShowIds
    omega

theorem updateTVShow_uniq {st : MemStorage} {x : String} {ex : TVShow} {d : InsertTVShow} {now : Int}
    (hwf : TVShowsWf st) (hu : UniqueTVShowImdbIds st)
    (h : st.getTVShowByImdbId x = some ex) (hd : d.imdbId = x) :
    UniqueTVShowImdbIds (st.updateTVShow ex.id d now) := by
  show ((st.updateTVShow ex.id d now).tvShows.map TVShow.imdbId).Pairwise (· ≠ ·)
  rw [updateTVShow_map_imdb hwf.1 h hd]
  exact hu

theorem createTVShow_map_imdb (st : MemStorage) (d : InsertTVShow) (now : Int) :
    (st.createTVShow d now).tvShows.map TVShow.imdbId =
      st.tvShows.map TVShow.imdbId ++ [d.imdbId] := by
  simp [MemStorage.createTVShow]

theorem createTVShow_map_id (st : MemStorage) (d : InsertTVShow) (now : Int) :
    (st.createTVShow d now).tvShows.map TVShow.id =
      st.tvShows.map TVShow.id ++ [st.currentTVShowIds] := by
  simp [MemStorage.createTVShow]

theorem createTVShow_wf {st : MemStorage} (d : InsertTVShow) (now : Int)
    (hwf : TVShowsWf st) : TVShowsWf (st.createTVShow d now) := by
  constructor
  · rw [createTVShow_map_id]
    rw [List.pairwise_append]
    refine ⟨hwf.1, List.pairwise_singleton _ _, ?_⟩
    intro a ha b hb
    obtain ⟨r, hr, hid⟩ := List.mem_map.1 ha
    have := hwf.2 r hr
    have hb' : b = st.currentTVShowIds := by simpa using hb
    omega
  · intro r hr
    show r.id < st.currentTVShowIds + 1
    rcases List.mem_append.1 hr with hr | hr
    · have := hwf.2 r hr
      omega
    · have : r.id = st.currentTVShowIds := by
        simp [MemStorage.createTVShow] at hr
        · rw [hr]
      omega

theorem createTVShow_uniq {st : MemStorage} {d : InsertTVShow} {now : Int}
    (hu : UniqueTVShowImdbIds st) (hnone : st.getTVShowByImdbId d.imdbId = none) :
    UniqueTVShowImdbIds (st.createTVShow d now) := by
  show ((st.createTVShow d now).tvShows.map TVShow.imdbId).Pairwise (· ≠ ·)
  rw [createTVShow_map_imdb]
  rw [List.pairwise_append]
  refine ⟨hu, List.pairwise_singleton _ _, ?_⟩
  intro a ha b hb
  obtain ⟨r, hr, hid⟩ := List.mem_map.1 ha
  have hall := List.find?_eq_none.1 hnone
  have := hall r hr
  have hb' : b = d.imdbId := by simpa using hb
  subst hb'
  subst hid
  intro hc
  exact this (by simp [hc])

theorem processTVShowsStep_frame (now : Int) (acc : MemStorage × Nat × Nat) (s : VidsrcTVShow) :
    (processTVShowsStep now acc s).1.movies = acc.1.movies ∧
    (processTVShowsStep now acc s).1.episodes = acc.1.episodes ∧
    (processTVShowsStep now acc s).1.movieCache = acc.1.movieCache ∧
    (processTVShowsStep now acc s).1.tvShowCache = acc.1.tvShowCache ∧
    (processTVShowsStep now acc s).1.episodeCache = acc.1.episodeCache ∧
    (processTVShowsStep now acc s).1.currentMovieIds = acc.1.currentMovieIds ∧
    (processTVShowsStep now acc s).1.currentEpisodeIds = acc.1.currentEpisodeIds := by
  rcases h : acc.1.getTVShowByImdbId s.imdb_id with _ | ex <;>
    simp [processTVShowsStep, h, MemStorage.createTVShow, MemStorage.updateTVShow]

theorem processTVShowsStep_wf (now : Int) (acc : MemStorage × Nat × Nat) (s : VidsrcTVShow)
    (hwf : TVShowsWf acc.1) : TVShowsWf (processTVShowsStep now acc s).1 := by
  rcases h : acc.1.getTVShowByImdbId s.imdb_id with _ | ex
  · simp only [processTVShowsStep, h]
    exact createTVShow_wf _ _ hwf
  · simp only [processTVShowsStep, h]
    exact updateTVShow_wf hwf h

theorem processTVShowsStep_uniq (now : Int) (acc : MemStorage × Nat × Nat) (s : VidsrcTVShow)
    (hwf : TVShowsWf acc.1) (hu : UniqueTVShowImdbIds acc.1) :
    UniqueTVShowImdbIds (processTVShowsStep now acc s).1 := by
  rcases h : acc.1.getTVShowByImdbId s.imdb_id with _ | ex
  · simp only [processTVShowsStep, h]
    exact createTVShow_uniq hu h
  · simp only [processTVShowsStep, h]
    exact updateTVShow_uniq hwf hu h rfl

theorem processTVShows_go_wf (now : Int) :
    ∀ (l : List VidsrcTVShow) (acc : MemStorage × Nat × Nat), TVShowsWf acc.1 →
      TVShowsWf (l.foldl (processTVShowsStep now) acc).1 := by
  intro l
  induction l with
  | nil => intro acc h; exact h
  | cons s l ih => intro acc h; exact ih _ (processTVShowsStep_wf now acc s h)

theorem processTVShows_go_uniq (now : Int) :
    ∀ (l : List VidsrcTVShow) (acc : MemStorage × Nat × Nat),
      TVShowsWf acc.1 → UniqueTVShowImdbIds acc.1 →
      UniqueTVShowImdbIds (l.foldl (processTVShowsStep now) acc).1 := by
  intro l
  induction l with
  | nil => intro acc _ hu; exact hu
  | cons s l ih =>
      intro acc h hu
      exact ih _ (processTVShowsStep_wf now acc s h) (processTVShowsStep_uniq now acc s h hu)

theorem processTVShows_go_frame (now : Int) :
    ∀ (l : List VidsrcTVShow) (acc : MemStorage × Nat × Nat),
      (l.foldl (processTVShowsStep now) acc).1.movies = acc.1.movies ∧
      (l.foldl (processTVShowsStep now) acc).1.episodes = acc.1.episodes ∧
      (l.foldl (processTVShowsStep now) acc).1.movieCache = acc.1.movieCache ∧
      (l.foldl (processTVShowsStep now) acc).1.tvShowCache = acc.1.tvShowCache ∧
      (l.foldl (processTVShowsStep now) acc).1.episodeCache = acc.1.episodeCache ∧
      (l.foldl (processTVShowsStep now) acc).1.currentMovieIds = acc.1.currentMovieIds ∧
      (l.foldl (processTVShowsStep now) acc).1.currentEpisodeIds = acc.1.currentEpisodeIds := by
  intro l
  induction l with
  | nil => intro acc; exact ⟨rfl, rfl, rfl, rfl, rfl, rfl, rfl⟩
  | cons s l ih =>
      intro acc
      have h1 := processTVShowsStep_frame now acc s
      have h2 := ih (processTVShowsStep now acc s)
      rw [List.foldl_cons]
      exact ⟨h2.1.trans h1.1, h2.2.1.trans h1.2.1, h2.2.2.1.trans h1.2.2.1,
        h2.2.2.2.1.trans h1.2.2.2.1, h2.2.2.2.2.1.trans h1.2.2.2.2.1,
        h2.2.2.2.2.2.1.trans h1.2.2.2.2.2.1, h2.2.2.2.2.2.2.trans h1.2.2.2.2.2.2⟩

/-! ### Lemmas about the episode table operations -/

theorem mem_insertSorted (e : Episode) :
    ∀ (l : List Episode) (a : Episode),
      a ∈ MemStorage.insertSorted e l ↔ a = e ∨ a ∈ l := by
  intro l
  induction l with
  | nil => intro a; simp [MemStorage.insertSorted]
  | cons x xs ih =>
      intro a
      unfold MemStorage.insertSorted
      by_cases hc : e.season < x.season ∨ (e.season = x.season ∧ e.episode < x.episode)
      · rw [if_pos hc]
        simp [List.mem_cons]
      · rw [if_neg hc]
        simp only [List.mem_cons, ih]
        tauto

theorem mem_sortEpisodes :
    ∀ (l : List Episode) (a : Episode), a ∈ MemStorage.sortEpisodes l ↔ a ∈ l := by
  intro l
  induction l with
  | nil => intro a; simp [MemStorage.sortEpisodes]
  | cons x xs ih =>
      intro a
      unfold MemStorage.sortEpisodes
      rw [mem_insertSorted]
      simp [List.mem_cons, ih]

theorem mem_getEpisodes {st : MemStorage} {tvShowId : Nat} {season : Int} {r : Episode} :
    r ∈ st.getEpisodes tvShowId season ↔
      r ∈ st.episodes ∧
        (r.tvShowId == tvShowId && (if season = 0 then true else r.season == season)) = true := by
  unfold MemStorage.getEpisodes
  rw [mem_sortEpisodes]
  exact List.mem_filter

theorem update_decomp_of_mem {α : Type} (idf : α → Nat) (f : α → α) :
    ∀ {l : List α} {ex : α}, (l.map idf).Pairwise (· ≠ ·) → ex ∈ l →
      ∃ l1 l2, l = l1 ++ ex :: l2 ∧
        l.map (fun r => if idf r = idf ex then f r else r) = l1 ++ f ex :: l2 := by
  intro l ex hpw hmem
  obtain ⟨l1, l2, hl⟩ := List.append_of_mem hmem
  refine ⟨l1, l2, hl, ?_⟩
  rw [hl] at hpw
  rw [List.map_append, List.map_cons] at hpw
  rw [List.pairwise_append] at hpw
  obtain ⟨_, hpc, hcross⟩ := hpw
  rw [List.pairwise_cons] at hpc
  have hne1 : ∀ a ∈ l1, idf a ≠ idf ex := by
    intro a ha
    exact hcross _ (List.mem_map_of_mem idf ha) _ (List.mem_cons_self _ _)
  have hne2 : ∀ a ∈ l2, idf a ≠ idf ex := by
    intro a ha
    exact fun hc => (hpc.1 _ (List.mem_map_of_mem idf ha)) hc.symm
  rw [hl]
  exact map_update_middle idf f l1 l2 ex hne1 hne2

theorem updateEpisode_map_key {st : MemStorage} {ex : Episode} {d : InsertEpisode}
    (hpw : (st.episodes.map Episode.id).Pairwise (· ≠ ·)) (hmem : ex ∈ st.episodes)
    (hkey : d.tvShowId = ex.tvShowId ∧ d.season = ex.season ∧ d.episode = ex.episode) :
    (st.updateEpisode ex.id d).episodes.map episodeKey = st.episodes.map episodeKey := by
  obtain ⟨l1, l2, hl, hupd⟩ :=
    update_decomp_of_mem Episode.id (fun r => MemStorage.Episode.applyInsert r d) hpw hmem
  show (st.episodes.map fun r => if r.id = ex.id then MemStorage.Episode.applyInsert r d else r).map
      episodeKey = _
  rw [hupd, hl]
  simp [MemStorage.Episode.applyInsert, episodeKey, hkey.1, hkey.2.1, hkey.2.2]

theorem updateEpisode_map_id {st : MemStorage} {ex : Episode} {d : InsertEpisode}
    (hpw : (st.episodes.map Episode.id).Pairwise (· ≠ ·)) (hmem : ex ∈ st.episodes) :
    (st.updateEpisode ex.id d).episodes.map Episode.id = st.episodes.map Episode.id := by
  obtain ⟨l1, l2, hl, hupd⟩ :=
    update_decomp_of_mem Episode.id (fun r => MemStorage.Episode.applyInsert r d) hpw hmem
  show (st.episodes.map fun r => if r.id = ex.id then MemStorage.Episode.applyInsert r d else r).map
      Episode.id = _
  rw [hupd, hl]
  simp [MemStorage.Episode.applyInsert]

theorem updateEpisode_wf {st : MemStorage} {ex : Episode} {d : InsertEpisode}
    (hwf : EpisodesWf st) (hmem : ex ∈ st.episodes) :
    EpisodesWf (st.updateEpisode ex.id d) := by
  constructor
  · show ((st.updateEpisode ex.id d).episodes.map Episode.id).Pairwise (· ≠ ·)
    rw [updateEpisode_map_id hwf.1 hmem]
    exact hwf.1
  · intro r hr
    have : r.id ∈ (st.updateEpisode ex.id d).episodes.map Episode.id :=
      List.mem_map_of_mem Episode.id hr
    rw [updateEpisode_map_id hwf.1 hmem] at this
    obtain ⟨r', hr', hid⟩ := List.mem_map.1 this
    have := hwf.2 r' hr'
    show r.id < st.currentEpisodeIds
    omega

theorem updateEpisode_uniq {st : MemStorage} {ex : Episode} {d : InsertEpisode}
    (hwf : EpisodesWf st) (hu : UniqueEpisodeKeys st) (hmem : ex ∈ st.episodes)
    (hkey : d.tvShowId = ex.tvShowId ∧ d.season = ex.season ∧ d.episode = ex.episode) :
    UniqueEpisodeKeys (st.updateEpisode ex.id d) := by
  show ((st.updateEpisode ex.id d).episodes.map episodeKey).Pairwise (· ≠ ·)
  rw [updateEpisode_map_key hwf.1 hmem hkey]
  exact hu

theorem createEpisode_map_key (st : MemStorage) (d : InsertEpisode) (now : Int) :
    (st.createEpisode d now).episodes.map episodeKey =
      st.episodes.map episodeKey ++ [(d.tvShowId, d.season, d.episode)] := by
  simp [MemStorage.createEpisode, episodeKey]

theorem createEpisode_map_id (st : MemStorage) (d : InsertEpisode) (now : Int) :
    (st.createEpisode d now).episodes.map Episode.id =
      st.episodes.map Episode.id ++ [st.currentEpisodeIds] := by
  simp [MemStorage.createEpisode]

theorem createEpisode_wf {st : MemStorage} (d : InsertEpisode) (now : Int)
    (hwf : EpisodesWf st) : EpisodesWf (st.createEpisode d now) := by
  constructor
  · rw [createEpisode_map_id]
    rw [List.pairwise_append]
    refine ⟨hwf.1, List.pairwise_singleton _ _, ?_⟩
    intro a ha b hb
    obtain ⟨r, hr, hid⟩ := List.mem_map.1 ha
    have := hwf.2 r hr
    have hb' : b = st.currentEpisodeIds := by simpa using hb
    omega
  · intro r hr
    show r.id < st.currentEpisodeIds + 1
    rcases List.mem_append.1 hr with hr | hr
    · have := hwf.2 r hr
      omega
    · have : r.id = st.currentEpisodeIds := by
        simp [MemStorage.createEpisode] at hr
        · rw [hr]
      omega

theorem createEpisode_uniq {st : MemStorage} {d : InsertEpisode} {now : Int}
    (hu : UniqueEpisodeKeys st)
    (habsent : ∀ r ∈ st.episodes, episodeKey r ≠ (d.tvShowId, d.season, d.episode)) :
    UniqueEpisodeKeys (st.createEpisode d now) := by
  show ((st.createEpisode d now).episodes.map episodeKey).Pairwise (· ≠ ·)
  rw [createEpisode_map_key]
  rw [List.pairwise_append]
  refine ⟨hu, List.pairwise_singleton _ _, ?_⟩
  intro a ha b hb
  obtain ⟨r, hr, hid⟩ := List.mem_map.1 ha
  have hb' : b = (d.tvShowId, d.season, d.episode) := by simpa using hb
  subst hb'
  subst hid
  exact habsent r hr

/-! ### Lemmas about the per-episode loop -/

theorem processEpisodesStep_skip (now : Int) (acc : MemStorage × Nat × Nat) (e : VidsrcEpisode)
    (h : acc.1.getTVShowByImdbId e.show_imdb_id = none) :
    processEpisodesStep now acc e = acc := by
  simp only [processEpisodesStep, h]

theorem processEpisodesStep_wf (now : Int) (acc : MemStorage × Nat × Nat) (e : VidsrcEpisode)
    (hwf : EpisodesWf acc.1) : EpisodesWf (processEpisodesStep now acc e).1 := by
  rcases hs : acc.1.getTVShowByImdbId e.show_imdb_id with _ | tv
  · rw [processEpisodesStep_skip now acc e hs]
    exact hwf
  · rcases hf : (acc.1.getEpisodes tv.id e.season).find?
        (fun x => x.season == e.season && x.episode == e.episode) with _ | ex
    · simp only [processEpisodesStep, hs, hf]
      exact createEpisode_wf _ _ hwf
    · simp only [processEpisodesStep, hs, hf]
      have hmem : ex ∈ acc.1.episodes :=
        (mem_getEpisodes.1 (List.mem_of_find?_eq_some hf)).1
      exact updateEpisode_wf hwf hmem

theorem processEpisodesStep_uniq (now : Int) (acc : MemStorage × Nat × Nat) (e : VidsrcEpisode)
    (hwf : EpisodesWf acc.1) (hu : UniqueEpisodeKeys acc.1) :
    UniqueEpisodeKeys (processEpisodesStep now acc e).1 := by
  rcases hs : acc.1.getTVShowByImdbId e.show_imdb_id with _ | tv
  · rw [processEpisodesStep_skip now acc e hs]
    exact hu
  · rcases hf : (acc.1.getEpisodes tv.id e.season).find?
        (fun x => x.season == e.season && x.episode == e.episode) with _ | ex
    · simp only [processEpisodesStep, hs, hf]
      apply createEpisode_uniq hu
      intro r hr hkey
      have hkey' : r.tvShowId = tv.id ∧ r.season = e.season ∧ r.episode = e.episode := by
        simpa [episodeKey, episodeDataOf, Prod.ext_iff] using hkey
      have hrG : r ∈ acc.1.getEpisodes tv.id e.season := by
        rw [mem_getEpisodes]
        refine ⟨hr, ?_⟩
        by_cases h0 : e.season = 0 <;> simp [h0, hkey'.1, hkey'.2.1]
      have hnone := List.find?_eq_none.1 hf r hrG
      apply hnone
      simp [hkey'.2.1, hkey'.2.2]
    · simp only [processEpisodesStep, hs, hf]
      obtain ⟨hmem, hcond⟩ := mem_getEpisodes.1 (List.mem_of_find?_eq_some hf)
      have htv : ex.tvShowId = tv.id := by
        have hc2 := hcond
        rw [Bool.and_eq_true] at hc2
        exact eq_of_beq hc2.1
      have hpred := List.find?_some hf
      have hse : ex.season = e.season ∧ ex.episode = e.episode := by
        rw [Bool.and_eq_true] at hpred
        exact ⟨eq_of_beq hpred.1, eq_of_beq hpred.2⟩
      exact updateEpisode_uniq hwf hu hmem ⟨htv.symm, hse.1.symm, hse.2.symm⟩

theorem processEpisodesStep_frame (now : Int) (acc : MemStorage × Nat × Nat) (e : VidsrcEpisode) :
    (processEpisodesStep now acc e).1.movies = acc.1.movies ∧
    (processEpisodesStep now acc e).1.tvShows = acc.1.tvShows ∧
    (processEpisodesStep now acc e).1.movieCache = acc.1.movieCache ∧
    (processEpisodesStep now acc e).1.tvShowCache = acc.1.tvShowCache ∧
    (processEpisodesStep now acc e).1.episodeCache = acc.1.episodeCache ∧
    (processEpisodesStep now acc e).1.currentMovieIds = acc.1.currentMovieIds ∧
    (processEpisodesStep now acc e).1.currentTVShowIds = acc.1.currentTVShowIds := by
  rcases hs : acc.1.getTVShowByImdbId e.show_imdb_id with _ | tv
  · rw [processEpisodesStep_skip now acc e hs]
    exact ⟨rfl, rfl, rfl, rfl, rfl, rfl, rfl⟩
  · rcases hf : (acc.1.getEpisodes tv.id e.season).find?
        (fun x => x.season == e.season && x.episode == e.episode) with _ | ex <;>
      simp [processEpisodesStep, hs, hf, MemStorage.createEpisode, MemStorage.updateEpisode]

theorem processEpisodes_go_wf (now : Int) :
    ∀ (l : List VidsrcEpisode) (acc : MemStorage × Nat × Nat), EpisodesWf acc.1 →
      EpisodesWf (l.foldl (processEpisodesStep now) acc).1 := by
  intro l
  induction l with
  | nil => intro acc h; exact h
  | cons e l ih => intro acc h; exact ih _ (processEpisodesStep_wf now acc e h)

theorem processEpisodes_go_uniq (now : Int) :
    ∀ (l : List VidsrcEpisode) (acc : MemStorage × Nat × Nat),
      EpisodesWf acc.1 → UniqueEpisodeKeys acc.1 →
      UniqueEpisodeKeys (l.foldl (processEpisodesStep now) acc).1 := by
  intro l
  induction l with
  | nil => intro acc _ hu; exact hu
  | cons e l ih =>
      intro acc h hu
      exact ih _ (processEpisodesStep_wf now acc e h) (processEpisodesStep_uniq now acc e h hu)

theorem processEpisodes_go_frame (now : Int) :
    ∀ (l : List VidsrcEpisode) (acc : MemStorage × Nat × Nat),
      (l.foldl (processEpisodesStep now) acc).1.movies = acc.1.movies ∧
      (l.foldl (processEpisodesStep now) acc).1.tvShows = acc.1.tvShows ∧
      (l.foldl (processEpisodesStep now) acc).1.movieCache = acc.1.movieCache ∧
      (l.foldl (processEpisodesStep now) acc).1.tvShowCache = acc.1.tvShowCache ∧
      (l.foldl (processEpisodesStep now) acc).1.episodeCache = acc.1.episodeCache ∧
      (l.foldl (processEpisodesStep now) acc).1.currentMovieIds = acc.1.currentMovieIds ∧
      (l.foldl (processEpisodesStep now) acc).1.currentTVShowIds = acc.1.currentTVShowIds := by
  intro l
  induction l with
  | nil => intro acc; exact ⟨rfl, rfl, rfl, rfl, rfl, rfl, rfl⟩
  | cons e l ih =>
      intro acc
      have h1 := processEpisodesStep_frame now acc e
      have h2 := ih (processEpisodesStep now acc e)
      rw [List.foldl_cons]
      exact ⟨h2.1.trans h1.1, h2.2.1.trans h1.2.1, h2.2.2.1.trans h1.2.2.1,
        h2.2.2.2.1.trans h1.2.2.2.1, h2.2.2.2.2.1.trans h1.2.2.2.2.1,
        h2.2.2.2.2.2.1.trans h1.2.2.2.2.2.1, h2.2.2.2.2.2.2.trans h1.2.2.2.2.2.2⟩

/-! ### Fetch-level lemmas for the TV-show and episode endpoints -/

theorem fetchEpisodes_ok_net_one {page : Nat} {env : Env} {st : MemStorage} {o : FetchOutcome}
    (h : fetchEpisodesFromVidsrc page env st = .ok o) (hnet : o.networkCalls = 1) :
    fetchEpisodesNetwork page env st = .ok o := by
  unfold fetchEpisodesFromVidsrc at h
  rcases hc : MemStorage.cacheGet st.episodeCache page with _ | cached
  · rw [hc] at h
    exact h
  · simp only [hc] at h
    by_cases hf : isCacheFresh env.now cached.lastUpdated oneHourMs
    · rw [if_pos hf] at h
      rcases hd : cached.data with _ | l
      · rw [hd] at h
        exact h
      · rw [hd] at h
        injection h with h2
        rw [← h2] at hnet
        simp at hnet
    · rw [if_neg hf] at h
      exact h

theorem fetchEpisodesNetwork_resp_some (page : Nat) (env : Env) (st : MemStorage)
    (l : List VidsrcEpisode) (hresp : env.episodesResp page = .ok (some l)) :
    fetchEpisodesNetwork page env st = .ok
      { result := { added := (processEpisodes l env.now (episodesCacheState page env st l)).2.1,
                    updated := (processEpisodes l env.now (episodesCacheState page env st l)).2.2,
                    total := l.length },
        state := (processEpisodes l env.now (episodesCacheState page env st l)).1,
        networkCalls := 1 } := by
  unfold fetchEpisodesNetwork episodesCacheState
  rw [hresp]

theorem fetchMoviesState_cases (page : Nat) (env : Env) (st : MemStorage) :
    ∀ o, fetchMoviesFromVidsrc page env st = .ok o →
      o.state = st ∨ ∃ l, env.moviesResp page = .ok (some l) ∧
        o.state = (processMovies l env.now (moviesCacheState page env st l)).1 := by
  have hnet : ∀ o, fetchMoviesNetwork page env st = .ok o →
      o.state = st ∨ ∃ l, env.moviesResp page = .ok (some l) ∧
        o.state = (processMovies l env.now (moviesCacheState page env st l)).1 := by
    intro o h
    unfold fetchMoviesNetwork at h
    rcases hr : env.moviesResp page with _ | ll <;> simp only [hr] at h
    · exact absurd h (by simp)
    · rcases ll with _ | l
      · injection h with h2
        left
        rw [← h2]
      · right
        refine ⟨l, rfl, ?_⟩
        injection h with h2
        rw [← h2]
        rfl
  intro o h
  unfold fetchMoviesFromVidsrc at h
  rcases hc : MemStorage.cacheGet st.movieCache page with _ | cached
  · rw [hc] at h
    exact hnet o h
  · simp only [hc] at h
    by_cases hf : isCacheFresh env.now cached.lastUpdated oneHourMs
    · rw [if_pos hf] at h
      rcases hd : cached.data with _ | l
      · rw [hd] at h
        exact hnet o h
      · rw [hd] at h
        injection h with h2
        left
        rw [← h2]
    · rw [if_neg hf] at h
      exact hnet o h

theorem fetchTVShowsState_cases (page : Nat) (env : Env) (st : MemStorage) :
    ∀ o, fetchTVShowsFromVidsrc page env st = .ok o →
      o.state = st ∨ ∃ l, env.tvShowsResp page = .ok (some l) ∧
        o.state = (processTVShows l env.now (tvShowsCacheState page env st l)).1 := by
  have hnet : ∀ o, fetchTVShowsNetwork page env st = .ok o →
      o.state = st ∨ ∃ l, env.tvShowsResp page = .ok (some l) ∧
        o.state = (processTVShows l env.now (tvShowsCacheState page env st l)).1 := by
    intro o h
    unfold fetchTVShowsNetwork at h
    rcases hr : env.tvShowsResp page with _ | ll <;> simp only [hr] at h
    · exact absurd h (by simp)
    · rcases ll with _ | l
      · injection h with h2
        left
        rw [← h2]
      · right
        refine ⟨l, rfl, ?_⟩
        injection h with h2
        rw [← h2]
        rfl
  intro o h
  unfold fetchTVShowsFromVidsrc at h
  rcases hc : MemStorage.cacheGet st.tvShowCache page with _ | cached
  · rw [hc] at h
    exact hnet o h
  · simp only [hc] at h
    by_cases hf : isCacheFresh env.now cached.lastUpdated oneHourMs
    · rw [if_pos hf] at h
      rcases hd : cached.data with _ | l
      · rw [hd] at h
        exact hnet o h
      · rw [hd] at h
        injection h with h2
        left
        rw [← h2]
    · rw [if_neg hf] at h
      exact hnet o h

theorem fetchEpisodesState_cases (page : Nat) (env : Env) (st : MemStorage) :
    ∀ o, fetchEpisodesFromVidsrc page env st = .ok o →
      o.state = st ∨ ∃ l, env.episodesResp page = .ok (some l) ∧
        o.state = (processEpisodes l env.now (episodesCacheState page env st l)).1 := by
  have hnet : ∀ o, fetchEpisodesNetwork page env st = .ok o →
      o.state = st ∨ ∃ l, env.episodesResp page = .ok (some l) ∧
        o.state = (processEpisodes l env.now (episodesCacheState page env st l)).1 := by
    intro o h
    unfold fetchEpisodesNetwork at h
    rcases hr : env.episodesResp page with _ | ll <;> simp only [hr] at h
    · exact absurd h (by simp)
    · rcases ll with _ | l
      · injection h with h2
        left
        rw [← h2]
      · right
        refine ⟨l, rfl, ?_⟩
        injection h with h2
        rw [← h2]
        rfl
  intro o h
  unfold fetchEpisodesFromVidsrc at h
  rcases hc : MemStorage.cacheGet st.episodeCache page with _ | cached
  · rw [hc] at h
    exact hnet o h
  · simp only [hc] at h
    by_cases hf : isCacheFresh env.now cached.lastUpdated oneHourMs
    · rw [if_pos hf] at h
      rcases hd : cached.data with _ | l
      · rw [hd] at h
        exact hnet o h
      · rw [hd] at h
        injection h with h2
        left
        rw [← h2]
    · rw [if_neg hf] at h
      exact hnet o h

/-! ### Invariant preservation by whole sync invocations -/

theorem applySyncOp_movie_inv (page : Nat) (env : Env) (st : MemStorage)
    (hinv : CatalogInv st) : CatalogInv (applySyncOp st (.movieSync page env)) := by
  rcases hf : fetchMoviesFromVidsrc page env st with e | o
  · simp only [applySyncOp, hf]
    exact hinv
  · simp only [applySyncOp, hf]
    rcases fetchMoviesState_cases page env st o hf with hs | ⟨l, _, hs⟩
    · rw [hs]
      exact hinv
    · rw [hs]
      obtain ⟨hmw, hum, htw, hus⟩ := hinv
      have hframe := processMovies_go_frame env.now l (moviesCacheState page env st l, 0, 0)
      refine ⟨processMovies_go_wf env.now l _ hmw, processMovies_go_uniq env.now l _ hmw hum,
        TVShowsWf_congr hframe.1 hframe.2.2.2.2.2.1 htw,
        UniqueTVShowImdbIds_congr hframe.1 hus⟩

theorem applySyncOp_tvshow_inv (page : Nat) (env : Env) (st : MemStorage)
    (hinv : CatalogInv st) : CatalogInv (applySyncOp st (.tvShowSync page env)) := by
  rcases hf : fetchTVShowsFromVidsrc page env st with e | o
  · simp only [applySyncOp, hf]
    exact hinv
  · simp only [applySyncOp, hf]
    rcases fetchTVShowsState_cases page env st o hf with hs | ⟨l, _, hs⟩
    · rw [hs]
      exact hinv
    · rw [hs]
      obtain ⟨hmw, hum, htw, hus⟩ := hinv
      have hframe := processTVShows_go_frame env.now l (tvShowsCacheState page env st l, 0, 0)
      refine ⟨MoviesWf_congr hframe.1 hframe.2.2.2.2.2.1 hmw,
        UniqueMovieImdbIds_congr hframe.1 hum,
        processTVShows_go_wf env.now l _ htw,
        processTVShows_go_uniq env.now l _ htw hus⟩

theorem applySyncOp_episode_inv (page : Nat) (env : Env) (st : MemStorage)
    (hinv : CatalogInv st) : CatalogInv (applySyncOp st (.episodeSync page env)) := by
  rcases hf : fetchEpisodesFromVidsrc page env st with e | o
  · simp only [applySyncOp, hf]
    exact hinv
  · simp only [applySyncOp, hf]
    rcases fetchEpisodesState_cases page env st o hf with hs | ⟨l, _, hs⟩
    · rw [hs]
      exact hinv
    · rw [hs]
      obtain ⟨hmw, hum, htw, hus⟩ := hinv
      have hframe := processEpisodes_go_frame env.now l (episodesCacheState page env st l, 0, 0)
      refine ⟨MoviesWf_congr hframe.1 hframe.2.2.2.2.2.1 hmw,
        UniqueMovieImdbIds_congr hframe.1 hum,
        TVShowsWf_congr hframe.2.1 hframe.2.2.2.2.2.2 htw,
        UniqueTVShowImdbIds_congr hframe.2.1 hus⟩

theorem applySyncOp_inv (st : MemStorage) (op : SyncOp) (hinv : CatalogInv st) :
    CatalogInv (applySyncOp st op) := by
  cases op with
  | movieSync p e => exact applySyncOp_movie_inv p e st hinv
  | tvShowSync p e => exact applySyncOp_tvshow_inv p e st hinv
  | episodeSync p e => exact applySyncOp_episode_inv p e st hinv

theorem applyEpisodeSync_epInv (st : MemStorage) (pe : Nat × Env)
    (hinv : EpisodeInv st) : EpisodeInv (applyEpisodeSync st pe) := by
  rcases hf : fetchEpisodesFromVidsrc pe.1 pe.2 st with e | o
  · simp only [applyEpisodeSync, applySyncOp, hf]
    exact hinv
  · simp only [applyEpisodeSync, applySyncOp, hf]
    rcases fetchEpisodesState_cases pe.1 pe.2 st o hf with hs | ⟨l, _, hs⟩
    · rw [hs]
      exact hinv
    · rw [hs]
      obtain ⟨hw, hu⟩ := hinv
      exact ⟨processEpisodes_go_wf pe.2.now l _ hw, processEpisodes_go_uniq pe.2.now l _ hw hu⟩

/-! ### Claim theorems: dedup invariants, error propagation, validation -/

/-- Claim C6: after any sequence of sequentially executed sync invocations
(movie, TV-show or episode syncs) starting from a store with unique external
ids (and well-formed row ids, which holds for every store `MemStorage` builds),
no two movie rows and no two TV-show rows share the same `imdbId`: every sync
looks the id up before deciding, and only creates when the lookup found
nothing. -/
theorem sync_unique_imdbIds (st : MemStorage)
    (hmw : MoviesWf st) (hum : UniqueMovieImdbIds st)
    (htw : TVShowsWf st) (hus : UniqueTVShowImdbIds st) (ops : List SyncOp) :
    UniqueMovieImdbIds (ops.foldl applySyncOp st) ∧
    UniqueTVShowImdbIds (ops.foldl applySyncOp st) := by
  have key : ∀ (ops : List SyncOp) (st : MemStorage), CatalogInv st →
      CatalogInv (ops.foldl applySyncOp st) := by
    intro ops
    induction ops with
    | nil => intro st h; exact h
    | cons op ops ih =>
        intro st h
        rw [List.foldl_cons]
        exact ih _ (applySyncOp_inv st op h)
  have := key ops st ⟨hmw, hum, htw, hus⟩
  exact ⟨this.2.1, this.2.2.2⟩

/-- Witness for C6: one movie sync, one TV-show sync and one episode sync on
the empty store leave the external ids unique. -/
theorem sync_unique_imdbIds_witness :
    UniqueMovieImdbIds ([SyncOp.movieSync 1 env5a, SyncOp.tvShowSync 1 envR,
      SyncOp.episodeSync 1 envE].foldl applySyncOp st0) ∧
    UniqueTVShowImdbIds ([SyncOp.movieSync 1 env5a, SyncOp.tvShowSync 1 envR,
      SyncOp.episodeSync 1 envE].foldl applySyncOp st0) :=
  sync_unique_imdbIds st0
    ⟨List.Pairwise.nil, by intro r hr; exact absurd hr (List.not_mem_nil r)⟩
    List.Pairwise.nil
    ⟨List.Pairwise.nil, by intro r hr; exact absurd hr (List.not_mem_nil r)⟩
    List.Pairwise.nil _

/-- Claim C7: after any sequence of sequentially executed episode-sync
invocations starting from a store without duplicate `(tvShowId, season,
episode)` triples (and well-formed episode row ids), no two episode rows share
the same triple: `fetchEpisodesFromVidsrc` looks the existing episodes of the
show and season up and updates the match instead of creating a second row,
even though the `episodes` table declares no uniqueness constraint. -/
theorem episode_sync_unique_triples (st : MemStorage)
    (hw : EpisodesWf st) (hu : UniqueEpisodeKeys st) (ops : List (Nat × Env)) :
    UniqueEpisodeKeys (ops.foldl applyEpisodeSync st) := by
  have key : ∀ (ops : List (Nat × Env)) (st : MemStorage), EpisodeInv st →
      EpisodeInv (ops.foldl applyEpisodeSync st) := by
    intro ops
    induction ops with
    | nil => intro st h; exact h
    | cons pe ops ih =>
        intro st h
        rw [List.foldl_cons]
        exact ih _ (applyEpisodeSync_epInv st pe h)
  exact (key ops st ⟨hw, hu⟩).2

/-- Witness for C7: syncing the one-episode page of `envE` twice onto the
store holding its show keeps the episode triples unique. -/
theorem episode_sync_unique_triples_witness :
    UniqueEpisodeKeys ([(1, envE), (1, envE)].foldl applyEpisodeSync stS) :=
  episode_sync_unique_triples stS
    ⟨List.Pairwise.nil, by intro r hr; exact absurd hr (List.not_mem_nil r)⟩
    List.Pairwise.nil _

/-- Claim C10: an episode whose `show_imdb_id` matches no stored TV show is
skipped by the per-episode loop — the storage state and both counters are left
exactly as they were — while every episode of a successfully fetched page,
including skipped ones, still counts into the returned `total`. -/
theorem episode_unknown_show_skipped (now : Int) (acc : MemStorage × Nat × Nat)
    (e : VidsrcEpisode) (page : Nat) (env : Env) (st : MemStorage) (o : FetchOutcome)
    (l : List VidsrcEpisode)
    (h : acc.1.getTVShowByImdbId e.show_imdb_id = none)
    (hfe : fetchEpisodesFromVidsrc page env st = .ok o)
    (hresp : env.episodesResp page = .ok (some l)) (hnet : o.networkCalls = 1) :
    processEpisodesStep now acc e = acc ∧ o.result.total = l.length := by
  refine ⟨processEpisodesStep_skip now acc e h, ?_⟩
  have hn := fetchEpisodes_ok_net_one hfe hnet
  rw [fetchEpisodesNetwork_resp_some page env st l hresp] at hn
  injection hn with h2
  rw [← h2]

/-- Witness for C10: on the empty store (which holds no show `"tt0000002"`),
the loop body leaves state and counters untouched for `wEp`, and the fetched
one-episode page still reports `total = 1`. -/
theorem episode_unknown_show_skipped_witness :
    processEpisodesStep 0 (st0, 0, 0) wEp = (st0, 0, 0) ∧ oE.result.total = 1 :=
  episode_unknown_show_skipped 0 (st0, 0, 0) wEp 1 envE st0 oE [wEp] rfl rfl rfl rfl

/-- Counterexample to C4 as stated: with a provider that succeeds on page 1
(one movie added) and throws on page 2, `refreshContentDatabase 2` returns the
thrown error rather than the counts accumulated for page 1 — the failure is
not absorbed as a skipped unit. -/
theorem refresh_error_loses_counts_counterexample :
    refreshContentDatabase 2 envR st0 = Except.error () ∧
    (fetchMoviesFromVidsrc 1 envR st0).toOption.map (fun o => o.result.added) = some 1 := by
  refine ⟨?_, ?_⟩ <;> rfl

/-- Claim C4, amended: `refreshContentDatabase` has no internal error
recovery — a provider failure in a unit propagates to the caller as the thrown
exception and the accumulated counts are not returned (state changes of
already-processed units do persist, but the return value is the error). -/
theorem refresh_propagates_error (n : Nat) (env : Env) (st : MemStorage)
    (hn : 1 ≤ n) (h : fetchMoviesFromVidsrc 1 env st = Except.error ()) :
    refreshContentDatabase n env st = Except.error () := by
  cases n with
  | zero => omega
  | succ k =>
      unfold refreshContentDatabase refreshGo
      rw [h]
      rfl

/-- Witness for C4's amended claim: under the always-throwing network, the
refresh of one page returns the error. -/
theorem refresh_propagates_error_witness :
    refreshContentDatabase 1 wEnv st0 = Except.error () :=
  refresh_propagates_error 1 wEnv st0 (by decide) rfl

/-- Claim C8: `handleBulkImport` rejects every year range violating
`1900 ≤ startYear ≤ endYear ≤ currentYear` before any import work begins —
for any input with `startYear < 1900`, `startYear > currentYear`,
`endYear < 1900`, `endYear > currentYear` or `startYear > endYear`, it
returns without initializing progress and without issuing any per-year
fetch (`none`). -/
theorem handleBulkImport_rejects_range (startYear endYear currentYear : Int)
    (confirmed : Bool)
    (h : startYear < 1900 ∨ startYear > currentYear ∨ endYear < 1900 ∨
      endYear > currentYear ∨ startYear > endYear) :
    handleBulkImport startYear endYear currentYear confirmed = none := by
  unfold handleBulkImport
  rcases h with h | h | h | h | h <;> split_ifs <;> first | rfl | omega

/-- Witness for C8: the range 1899-2025 is rejected at current year 2025. -/
theorem handleBulkImport_rejects_range_witness :
    handleBulkImport 1899 2025 2025 true = none :=
  handleBulkImport_rejects_range 1899 2025 2025 true (Or.inl (by decide))
